import Mathlib

/-!
Verification of the resilient usage-reporting core of `bot.py`
(tg-decodo-trafic): a shallow embedding of its JSON-like data model,
Python-style primitives, billing-cycle date arithmetic, the candidate
query executor, the response normalizer and the usage formatter,
together with theorems settling the specification claims.
-/

namespace Decodo

/-- JSON-like value tree, as produced by `json.loads` in Python:
`null` is Python `None`, booleans are instances of `int`, numbers are
modelled as exact rationals, mappings keep insertion order. -/
inductive Json where
  | null : Json
  | bool (b : Bool) : Json
  | num (q : ℚ) : Json
  | str (s : String) : Json
  | arr (items : List Json) : Json
  | obj (fields : List (String × Json)) : Json

/-- ASCII whitespace, as stripped by Python `str.strip()`. -/
def pyIsSpace (c : Char) : Bool :=
  c == ' ' || c == '\t' || c == '\n' || c == '\r' || c == '\x0b' || c == '\x0c'

/-- `str.lstrip()` on a character list. -/
def stripLeftL (l : List Char) : List Char := l.dropWhile pyIsSpace

/-- `str.rstrip()` on a character list. -/
def stripRightL (l : List Char) : List Char := (l.reverse.dropWhile pyIsSpace).reverse

/-- `str.strip()` on a character list. -/
def pyStripL (l : List Char) : List Char := stripRightL (stripLeftL l)

/-- ASCII decimal digit test. -/
def isDigitC (c : Char) : Bool := 48 ≤ c.toNat && c.toNat ≤ 57

/-- Numeric value of an ASCII digit. -/
def digitVal (c : Char) : Nat := c.toNat - 48

/-- Value of a list of ASCII digits read in base 10. -/
def digitsToNat (ds : List Char) : Nat := ds.foldl (fun a c => 10 * a + digitVal c) 0

/-! Rational arithmetic helpers built on `Rat.divInt` and the `num`/`den`
projections, which the kernel evaluates (the `Rat.add`/`mul`/`sub`/`inv`
of the library are `@[irreducible]`, which would block `decide`-style
evaluation of the executable model). -/

/-- The rational `n`. -/
def qOfNat (n : Nat) : ℚ := Rat.divInt (Int.ofNat n) 1

/-- The rational `n`. -/
def qOfInt (n : Int) : ℚ := Rat.divInt n 1

/-- Rational multiplication. -/
def qMul (a b : ℚ) : ℚ := Rat.divInt (a.num * b.num) ((a.den : Int) * (b.den : Int))

/-- Rational division (`0` on a zero divisor, unused here). -/
def qDiv (a b : ℚ) : ℚ := Rat.divInt (a.num * (b.den : Int)) ((a.den : Int) * b.num)

/-- Rational addition. -/
def qAdd (a b : ℚ) : ℚ :=
  Rat.divInt (a.num * (b.den : Int) + b.num * (a.den : Int)) ((a.den : Int) * (b.den : Int))

/-- Rational subtraction. -/
def qSub (a b : ℚ) : ℚ :=
  Rat.divInt (a.num * (b.den : Int) - b.num * (a.den : Int)) ((a.den : Int) * (b.den : Int))

/-- Exponent tail of a Python float literal: either nothing is left, or an
`e`/`E` followed by an optionally signed digit run ending the string. -/
def expTail (v : ℚ) : List Char → Option ℚ
  | [] => some v
  | c :: r =>
    if c == 'e' || c == 'E' then
      let p : Bool × List Char :=
        match r with
        | '+' :: t => (false, t)
        | '-' :: t => (true, t)
        | _ => (false, r)
      let eds := p.2.takeWhile isDigitC
      if eds.isEmpty || !(p.2.dropWhile isDigitC).isEmpty then none
      else
        some (if p.1 then qDiv v (qOfNat (10 ^ digitsToNat eds))
          else qMul v (qOfNat (10 ^ digitsToNat eds)))
    else none

/-- Models Python `float(s)` on a string: optional sign, decimal digits with
an optional fractional part, optional exponent, surrounding whitespace
ignored.  (Underscored literals and `inf`/`nan` are not modelled; the uses
below either never receive them or treat them as failures anyway.) -/
def pyFloatOfStringL (l0 : List Char) : Option ℚ :=
  let l := pyStripL l0
  let sp : Bool × List Char :=
    match l with
    | '+' :: r => (false, r)
    | '-' :: r => (true, r)
    | _ => (false, l)
  let ip := sp.2.takeWhile isDigitC
  let r1 := sp.2.dropWhile isDigitC
  let cont : Option ℚ :=
    match r1 with
    | '.' :: r2 =>
      let fp := r2.takeWhile isDigitC
      let r3 := r2.dropWhile isDigitC
      if ip.isEmpty && fp.isEmpty then none
      else
        expTail (qAdd (qOfNat (digitsToNat ip))
          (qDiv (qOfNat (digitsToNat fp)) (qOfNat (10 ^ fp.length)))) r3
    | _ => if ip.isEmpty then none else expTail (qOfNat (digitsToNat ip)) r1
  cont.map (fun q => if sp.1 then Rat.neg q else q)

/-- Models Python `int(s)` on a string: optional sign and a digit run. -/
def pyIntOfStringL (l0 : List Char) : Option Int :=
  let l := pyStripL l0
  let sp : Bool × List Char :=
    match l with
    | '+' :: r => (false, r)
    | '-' :: r => (true, r)
    | _ => (false, l)
  if sp.2.isEmpty || !(sp.2.all isDigitC) then none
  else some (if sp.1 then -(digitsToNat sp.2 : Int) else (digitsToNat sp.2 : Int))

/-- Truncation toward zero, as Python `int()` applied to a float. -/
def ratTrunc (q : ℚ) : Int := if 0 ≤ q then q.floor else q.ceil

/-- Python truthiness of a JSON-like value. -/
def pyTruthy : Json → Bool
  | .null => false
  | .bool b => b
  | .num q => q != 0
  | .str s => s != ""
  | .arr xs => !xs.isEmpty
  | .obj kvs => !kvs.isEmpty

/-- Python `a or b`. -/
def pyOr (a b : Json) : Json := if pyTruthy a then a else b

/-- `dict` lookup distinguishing a missing key from a stored `None`. -/
def jGetRaw (kvs : List (String × Json)) (k : String) : Option Json :=
  (kvs.find? (fun p => p.1 == k)).map (·.2)

/-- Python `d.get(k)` (missing keys give `None`). -/
def jGet (kvs : List (String × Json)) (k : String) : Json := (jGetRaw kvs k).getD Json.null

/-- Python `d.get(k, default)`. -/
def jGetD (kvs : List (String × Json)) (k : String) (d : Json) : Json := (jGetRaw kvs k).getD d

/-- `isinstance(v, (int, float))`; Python booleans are instances of `int`. -/
def pyIsNum : Json → Bool
  | .num _ => true
  | .bool _ => true
  | _ => false

/-- Models Python `float(v)`; `none` models a raised
`TypeError`/`ValueError`. -/
def pyFloatJ : Json → Option ℚ
  | .num q => some q
  | .bool b => some (if b then 1 else 0)
  | .str s => pyFloatOfStringL s.data
  | _ => none

/-- Models Python `int(v)`; `none` models a raised exception. -/
def pyIntJ : Json → Option Int
  | .num q => some (ratTrunc q)
  | .bool b => some (if b then 1 else 0)
  | .str s => pyIntOfStringL s.data
  | _ => none

/-- Coarse model of Python `str(v)`; exact on strings, booleans, `None` and
integers, which are the only cases the claims exercise. -/
def pyStr : Json → String
  | .null => "None"
  | .bool b => if b then "True" else "False"
  | .num q => if q.den = 1 then toString q.num else toString q.num ++ "/" ++ toString q.den
  | .str s => s
  | .arr _ => "[...]"
  | .obj _ => "{...}"

/-! ## Calendar dates -/

/-- A calendar date, as Python `datetime.date` (proleptic Gregorian). -/
structure Date where
  year : Nat
  month : Nat
  day : Nat
deriving DecidableEq

/-- Gregorian leap-year rule, as `calendar.isleap`. -/
def isLeap (y : Nat) : Bool := y % 4 == 0 && (y % 100 != 0 || y % 400 == 0)

/-- Length of month `m` given the leap flag of its year. -/
def lastDayAux (leap : Bool) (m : Nat) : Nat :=
  match m with
  | 2 => if leap then 29 else 28
  | 4 => 30
  | 6 => 30
  | 9 => 30
  | 11 => 30
  | _ => 31

/-- Models `calendar.monthrange(year, month)[1]` (source `_last_day_of_month`). -/
def _last_day_of_month (year month : Nat) : Nat := lastDayAux (isLeap year) month

/-- The date triples `datetime.date` accepts (we keep `year ≥ 1` as Python's
`MINYEAR`). -/
def DValid (d : Date) : Prop :=
  1 ≤ d.year ∧ 1 ≤ d.month ∧ d.month ≤ 12 ∧ 1 ≤ d.day ∧ d.day ≤ _last_day_of_month d.year d.month

instance (d : Date) : Decidable (DValid d) := by unfold DValid; infer_instance

/-- Strict order on dates (Python `date` comparison). -/
def dlt (a b : Date) : Prop :=
  a.year < b.year ∨ (a.year = b.year ∧
    (a.month < b.month ∨ (a.month = b.month ∧ a.day < b.day)))

instance (a b : Date) : Decidable (dlt a b) := by unfold dlt; infer_instance

/-- Non-strict order on dates. -/
def dle (a b : Date) : Prop := dlt a b ∨ a = b

instance (a b : Date) : Decidable (dle a b) := by unfold dle; infer_instance

/-! ## `datetime.strptime`

CPython's `_strptime` matches each directive with a regular expression
(`%Y` is exactly four digits; `%m`, `%d`, `%H`, `%M`, `%S` accept one or
two digits with the alternations written below), requires the whole string
to be consumed, and then validates the field values by constructing a
`datetime`.  The deterministic parsers below follow the alternation order
of those regular expressions; backtracking cannot produce extra matches
here because after a two-digit match the following pattern element is a
literal (`-`, ` `, `:`) or the end of the input, which a digit never
satisfies. -/

/-- `%Y`: exactly four digits. -/
def parse4Digits : List Char → Option (Nat × List Char)
  | c1 :: c2 :: c3 :: c4 :: r =>
    if isDigitC c1 && isDigitC c2 && isDigitC c3 && isDigitC c4 then
      some (1000 * digitVal c1 + 100 * digitVal c2 + 10 * digitVal c3 + digitVal c4, r)
    else none
  | _ => none

/-- `%m`: `1[0-2]|0[1-9]|[1-9]`. -/
def parseMonthF : List Char → Option (Nat × List Char)
  | c1 :: c2 :: r =>
    if c1 == '1' && ('0' ≤ c2 && c2 ≤ '2') then some (10 + digitVal c2, r)
    else if c1 == '0' && ('1' ≤ c2 && c2 ≤ '9') then some (digitVal c2, r)
    else if '1' ≤ c1 && c1 ≤ '9' then some (digitVal c1, c2 :: r)
    else none
  | [c1] => if '1' ≤ c1 && c1 ≤ '9' then some (digitVal c1, []) else none
  | [] => none

/-- `%d`: `3[01]|[12]\d|0[1-9]|[1-9]`. -/
def parseDayF : List Char → Option (Nat × List Char)
  | c1 :: c2 :: r =>
    if c1 == '3' && ('0' ≤ c2 && c2 ≤ '1') then some (30 + digitVal c2, r)
    else if ('1' ≤ c1 && c1 ≤ '2') && isDigitC c2 then some (10 * digitVal c1 + digitVal c2, r)
    else if c1 == '0' && ('1' ≤ c2 && c2 ≤ '9') then some (digitVal c2, r)
    else if '1' ≤ c1 && c1 ≤ '9' then some (digitVal c1, c2 :: r)
    else none
  | [c1] => if '1' ≤ c1 && c1 ≤ '9' then some (digitVal c1, []) else none
  | [] => none

/-- `%H`: `2[0-3]|[0-1]\d|\d`. -/
def parseHourF : List Char → Option (Nat × List Char)
  | c1 :: c2 :: r =>
    if c1 == '2' && ('0' ≤ c2 && c2 ≤ '3') then some (20 + digitVal c2, r)
    else if ('0' ≤ c1 && c1 ≤ '1') && isDigitC c2 then some (10 * digitVal c1 + digitVal c2, r)
    else if isDigitC c1 then some (digitVal c1, c2 :: r)
    else none
  | [c1] => if isDigitC c1 then some (digitVal c1, []) else none
  | [] => none

/-- `%M`: `[0-5]\d|\d`. -/
def parseMinuteF : List Char → Option (Nat × List Char)
  | c1 :: c2 :: r =>
    if ('0' ≤ c1 && c1 ≤ '5') && isDigitC c2 then some (10 * digitVal c1 + digitVal c2, r)
    else if isDigitC c1 then some (digitVal c1, c2 :: r)
    else none
  | [c1] => if isDigitC c1 then some (digitVal c1, []) else none
  | [] => none

/-- `%S`: `6[0-1]|[0-5]\d|\d`; values `60`/`61` match the pattern but are
rejected by the `datetime` constructor. -/
def parseSecondF : List Char → Option (Nat × List Char)
  | c1 :: c2 :: r =>
    if c1 == '6' && ('0' ≤ c2 && c2 ≤ '1') then some (60 + digitVal c2, r)
    else if ('0' ≤ c1 && c1 ≤ '5') && isDigitC c2 then some (10 * digitVal c1 + digitVal c2, r)
    else if isDigitC c1 then some (digitVal c1, c2 :: r)
    else none
  | [c1] => if isDigitC c1 then some (digitVal c1, []) else none
  | [] => none

/-- A literal character of the format string. -/
def expectC (c : Char) : List Char → Option (List Char)
  | x :: r => if x == c then some r else none
  | [] => none

/-- `datetime.strptime(s, "%Y-%m-%d").date()`; `none` models the raised
`ValueError`. -/
def strptimeDateOnly (l : List Char) : Option Date :=
  match parse4Digits l with
  | none => none
  | some (y, r1) =>
    match expectC '-' r1 with
    | none => none
    | some r2 =>
      match parseMonthF r2 with
      | none => none
      | some (m, r3) =>
        match expectC '-' r3 with
        | none => none
        | some r4 =>
          match parseDayF r4 with
          | none => none
          | some (d, r5) =>
            if r5.isEmpty && 1 ≤ y && 1 ≤ d && d ≤ _last_day_of_month y m then
              some ⟨y, m, d⟩
            else none

/-- The `" %H:%M:%S"` tail of the full-timestamp format, carrying the date
fields through to validation. -/
def strptimeTimeTail (y m d : Nat) (r5 : List Char) : Option Date :=
  match expectC ' ' r5 with
  | none => none
  | some r6 =>
    match parseHourF r6 with
    | none => none
    | some (_h, r7) =>
      match expectC ':' r7 with
      | none => none
      | some r8 =>
        match parseMinuteF r8 with
        | none => none
        | some (_mi, r9) =>
          match expectC ':' r9 with
          | none => none
          | some r10 =>
            match parseSecondF r10 with
            | none => none
            | some (sec, r11) =>
              if r11.isEmpty && sec ≤ 59 && 1 ≤ y && 1 ≤ d && d ≤ _last_day_of_month y m then
                some ⟨y, m, d⟩
              else none

/-- `datetime.strptime(s, "%Y-%m-%d %H:%M:%S").date()`; `none` models the
raised `ValueError`. -/
def strptimeDateTime (l : List Char) : Option Date :=
  match parse4Digits l with
  | none => none
  | some (y, r1) =>
    match expectC '-' r1 with
    | none => none
    | some r2 =>
      match parseMonthF r2 with
      | none => none
      | some (m, r3) =>
        match expectC '-' r3 with
        | none => none
        | some r4 =>
          match parseDayF r4 with
          | none => none
          | some (d, r5) => strptimeTimeTail y m d r5

/-- `s.replace("T", " ").replace("Z", "").split(".")[0]` on characters. -/
def isoCleanup (l : List Char) : List Char :=
  (((l.map (fun c => if c == 'T' then ' ' else c)).filter (fun c => c != 'Z')).takeWhile
    (fun c => c != '.'))

/-- Source `_parse_date_guess`: strip, reject empty, try the full-timestamp
format on the ISO-cleaned string, then the date-only format on the first
ten characters. -/
def parseDateGuessL (l0 : List Char) : Option Date :=
  let l := pyStripL l0
  if l.isEmpty then none
  else
    match strptimeDateTime (isoCleanup l) with
    | some d => some d
    | none => strptimeDateOnly (l.take 10)

/-- Source `_parse_date_guess` on a `String`. -/
def _parse_date_guess (s : String) : Option Date := parseDateGuessL s.data

/-! ## Anchored billing cycle (source `_anchored_period_start` / `_anchored_period_end`)

The anchor string is only used through the day-of-month of the parsed
anchor, so the arithmetic core is factored out over that day. -/

/-- Body of `_anchored_period_start` after the anchor parsed to a date with
day-of-month `anchorDay`; `today` is `now_utc.date()`. -/
def _anchored_period_start_core (anchorDay : Nat) (today : Date) : Date :=
  let ld := _last_day_of_month today.year today.month
  let day := min anchorDay ld
  let candidate : Date := ⟨today.year, today.month, day⟩
  if dle candidate today then candidate
  else
    let py := if today.month = 1 then today.year - 1 else today.year
    let pm := if today.month = 1 then 12 else today.month - 1
    ⟨py, pm, min anchorDay (_last_day_of_month py pm)⟩

/-- Source `_anchored_period_start`. -/
def _anchored_period_start (anchor_date_str : String) (today : Date) : Option Date :=
  match _parse_date_guess anchor_date_str with
  | none => none
  | some anchor => some (_anchored_period_start_core anchor.day today)

/-- Body of `_anchored_period_end` after the anchor parsed to a date with
day-of-month `anchorDay`. -/
def _anchored_period_end_core (anchorDay : Nat) (start : Date) : Date :=
  let p := if start.month = 12 then (start.year + 1, 1) else (start.year, start.month + 1)
  ⟨p.1, p.2, min anchorDay (_last_day_of_month p.1 p.2)⟩

/-- Source `_anchored_period_end`. -/
def _anchored_period_end (anchor_date_str : String) (start : Date) : Option Date :=
  match _parse_date_guess anchor_date_str with
  | none => none
  | some anchor => some (_anchored_period_end_core anchor.day start)

/-! ## Candidate query executor (source `_fetch_month_usage_with_fallback`)

The injected query function is modelled as returning `Except`; `.error`
models a raised exception.  The executor returns its outcome — `.ok` a
response, `.error (some e)` a re-raised exception, `.error none` the
`assert last_err is not None` failure on an empty candidate list — paired
with the trace of candidates actually attempted, in order. -/

/-- Classified upstream failures: an `httpx.HTTPStatusError` with its
status code, or any other exception (transport, timeout, ...). -/
inductive QueryErr where
  | http (status : Nat) (body : String) : QueryErr
  | exc (msg : String) : QueryErr
deriving DecidableEq

/-- Source `_fetch_month_usage_with_fallback` with an explicit `last_err`
accumulator and an attempt trace. -/
def _fetch_month_usage_with_fallback {α : Type} (q : Option String → Except QueryErr α) :
    List (Option String) → Option QueryErr → Except (Option QueryErr) α × List (Option String)
  | [], last => (.error last, [])
  | pt :: rest, _last =>
    match q pt with
    | .ok r => (.ok r, [pt])
    | .error e =>
      match e with
      | .http s body =>
        if s = 400 then
          let next := _fetch_month_usage_with_fallback q rest (some (.http s body))
          (next.1, pt :: next.2)
        else (.error (some (.http s body)), [pt])
      | .exc m =>
        let next := _fetch_month_usage_with_fallback q rest (some (.exc m))
        (next.1, pt :: next.2)

/-! ## Proxy-type candidates (source `_map_service_to_proxy_type`,
`_build_proxy_type_candidates`) -/

/-- The `mapping` dict of `_map_service_to_proxy_type`; `.get(v, v)` falls
back to the key itself. -/
def svcMapping (v : String) : String :=
  match v with
  | "residential" => "residential_proxies"
  | "residential_proxies" => "residential_proxies"
  | "mobile" => "mobile_proxies"
  | "mobile_proxies" => "mobile_proxies"
  | "datacenter" => "datacenter_proxies"
  | "datacenter_proxies" => "datacenter_proxies"
  | "rtc_universal_proxies" => "rtc_universal_proxies"
  | "rtc_universal_core_proxies" => "rtc_universal_core_proxies"
  | "site_unblocker" => "rtc_site_unblocker_proxies"
  | "rtc_site_unblocker_proxies" => "rtc_site_unblocker_proxies"
  | "rtc_site_unblocker_req_proxies" => "rtc_site_unblocker_req_proxies"
  | _ => v

/-- `str.lower()` on a string (ASCII model). -/
def pyLowerS (s : String) : String := ⟨s.data.map Char.toLower⟩

/-- `str.strip()` on a string. -/
def pyStripS (s : String) : String := ⟨pyStripL s.data⟩

/-- Source `_map_service_to_proxy_type`: `None`/empty input gives `None`,
otherwise the stripped lower-cased value is mapped through `svcMapping`. -/
def _map_service_to_proxy_type (value : Option String) : Option String :=
  match value with
  | none => none
  | some v0 => if v0 = "" then none else some (svcMapping (pyLowerS (pyStripS v0)))

/-- The fixed fallback tuple iterated by `_build_proxy_type_candidates`. -/
def fixedFallback : List String :=
  ["mobile_proxies", "residential_proxies", "rtc_universal_proxies",
   "rtc_universal_core_proxies", "datacenter_proxies",
   "rtc_site_unblocker_proxies", "rtc_site_unblocker_req_proxies"]

/-- Truthiness of an `Optional[str]`: `None` and `""` are falsy. -/
def pyTruthyOS : Option String → Bool
  | none => false
  | some s => s != ""

/-- Source `_build_proxy_type_candidates`, keeping its membership checks:
`if first and first not in candidates`, `if None not in candidates`, and
`if v != first` along the fixed tuple. -/
def _build_proxy_type_candidates (env_value : Option String) : List (Option String) :=
  let first := _map_service_to_proxy_type env_value
  let c0 : List (Option String) := []
  let c1 := if pyTruthyOS first ∧ first ∉ c0 then c0 ++ [first] else c0
  let c2 := if none ∉ c1 then c1 ++ [none] else c1
  c2 ++ (fixedFallback.filter (fun v => some v ≠ first)).map (fun v => some v)

/-! ## Per-day byte extraction (source `_daily_bytes_from_traffic`) -/

/-- `v.isNull` distinguishes Python `None`. -/
def Json.isNull : Json → Bool
  | .null => true
  | _ => false

/-- `isinstance(v, dict)`. -/
def Json.isObj : Json → Bool
  | .obj _ => true
  | _ => false

/-- `isinstance(v, list)`. -/
def Json.isArr : Json → Bool
  | .arr _ => true
  | _ => false

/-- `int(v)` for a value already known to satisfy
`isinstance(v, (int, float))`. -/
def intOfNum : Json → Int
  | .num q => ratTrunc q
  | .bool b => if b then 1 else 0
  | _ => 0

/-- `float(v)` for a value already known to satisfy
`isinstance(v, (int, float))`. -/
def ratOfNum : Json → ℚ
  | .num q => q
  | .bool b => if b then 1 else 0
  | _ => 0

/-- Source `parse_unit_value` (inner helper of `extract_bytes`): numbers
pass through `int()`, strings are stripped, lower-cased and read with a
decimal unit suffix (`gb`/`mb`/`kb`/`b` with multipliers 1e9/1e6/1e3/1) or
as a plain number; anything else (or a parse failure) is `None`. -/
def parse_unit_value (v : Json) : Option Int :=
  match v with
  | .num q => some (ratTrunc q)
  | .bool b => some (if b then 1 else 0)
  | .str s0 =>
    let s := (pyStripL s0.data).map Char.toLower
    if ['g', 'b'].isSuffixOf s then
      (pyFloatOfStringL (pyStripL (s.take (s.length - 2)))).map
        (fun q => ratTrunc (qMul q (qOfNat 1000000000)))
    else if ['m', 'b'].isSuffixOf s then
      (pyFloatOfStringL (pyStripL (s.take (s.length - 2)))).map
        (fun q => ratTrunc (qMul q (qOfNat 1000000)))
    else if ['k', 'b'].isSuffixOf s then
      (pyFloatOfStringL (pyStripL (s.take (s.length - 2)))).map
        (fun q => ratTrunc (qMul q (qOfNat 1000)))
    else if ['b'].isSuffixOf s then
      (pyFloatOfStringL (pyStripL (s.take (s.length - 1)))).map ratTrunc
    else
      (pyFloatOfStringL s).map ratTrunc
  | _ => none

/-- `d.get(k)` when the caller requires a mapping: the fields iff the value
is one. -/
def jGetObj (kvs : List (String × Json)) (k : String) : Option (List (String × Json)) :=
  match jGet kvs k with
  | .obj m => some m
  | _ => none

/-- Direct combined-bytes probe of `extract_bytes`: numeric values via
`int()`, otherwise `parse_unit_value`. -/
def ebDirect (it : List (String × Json)) : List String → Option Int
  | [] => none
  | k :: ks =>
    let v := jGet it k
    if pyIsNum v then some (intOfNum v)
    else
      match parse_unit_value v with
      | some pv => some pv
      | none => ebDirect it ks

/-- The `rx`/`tx` pair summation of `extract_bytes`; `none` models both the
no-numeric-field case and a caught `int()` failure. -/
def ebPairSum (rx tx : Json) : Option Int :=
  if pyIsNum rx || pyIsNum tx then
    match pyIntJ (pyOr rx (.num 0)), pyIntJ (pyOr tx (.num 0)) with
    | some a, some b => some (a + b)
    | _, _ => none
  else none

/-- `rx_bytes`/`rxBytes` + `tx_bytes`/`txBytes` stage of `extract_bytes`. -/
def ebRxTx (it : List (String × Json)) : Option Int :=
  ebPairSum (pyOr (jGet it "rx_bytes") (jGet it "rxBytes"))
    (pyOr (jGet it "tx_bytes") (jGet it "txBytes"))

/-- GB/MB-suffixed numeric field stage of `extract_bytes`. -/
def ebScaled (it : List (String × Json)) (scale : ℚ) : List String → Option Int
  | [] => none
  | k :: ks =>
    let v := jGet it k
    if pyIsNum v then some (ratTrunc (qMul (ratOfNum v) scale)) else ebScaled it scale ks

/-- Generic `traffic`/`usage` stage of `extract_bytes`. -/
def ebUnit (it : List (String × Json)) : List String → Option Int
  | [] => none
  | k :: ks =>
    match parse_unit_value (jGet it k) with
    | some pv => some pv
    | none => ebUnit it ks

/-- Numeric-only probe used inside the `totals` container. -/
def ebDirectNum (m : List (String × Json)) : List String → Option Int
  | [] => none
  | k :: ks =>
    let v := jGet m k
    if pyIsNum v then some (intOfNum v) else ebDirectNum m ks

/-- `totals` sub-object stage of `extract_bytes`. -/
def ebTotals (it : List (String × Json)) : Option Int :=
  match jGetObj it "totals" with
  | some m =>
    match ebDirectNum m ["rx_tx_bytes", "rxTxBytes", "rx_tx", "rxTx", "bytes", "total_rx_tx"] with
    | some n => some n
    | none =>
      ebPairSum (pyOr (jGet m "rx_bytes") (jGet m "rxBytes"))
        (pyOr (jGet m "tx_bytes") (jGet m "txBytes"))
  | none => none

/-- Membership gives a smaller `sizeOf`; used for the termination of
`extract_bytes`. -/
theorem jGetObj_sizeOf {kvs : List (String × Json)} {k : String}
    {m : List (String × Json)} (h : jGetObj kvs k = some m) : sizeOf m < sizeOf kvs := by
  unfold jGetObj jGet jGetRaw at h
  rcases hfind : kvs.find? (fun p => p.1 == k) with _ | p
  · rw [hfind] at h; simp at h
  · rw [hfind] at h
    have hmem : p ∈ kvs := List.mem_of_find?_eq_some hfind
    have hsz : sizeOf p < sizeOf kvs := List.sizeOf_lt_of_mem hmem
    rcases p with ⟨a, v⟩
    simp only [Option.map_some', Option.getD_some] at h
    rcases v with _ | _ | _ | _ | _ | mv <;> simp at h
    subst h
    simp [Prod.mk.sizeOf_spec] at hsz ⊢
    omega

/-- Source `extract_bytes`: probe, in order, direct combined-bytes fields,
a split rx/tx pair, explicit GB/MB fields, generic `traffic`/`usage`
fields, a `totals` sub-object, and finally recurse one level into nested
`value`/`metrics`/`stat`/`stats` mappings (keeping a nonzero result);
otherwise 0. -/
def extract_bytes (it : List (String × Json)) : Int :=
  match ebDirect it ["rx_tx_bytes", "rxTxBytes", "rx_tx", "rxTx",
      "traffic_bytes", "trafficBytes", "bytes"] with
  | some n => n
  | none =>
    match ebRxTx it with
    | some n => n
    | none =>
      match ebScaled it 1000000000 ["traffic_gb", "trafficGB", "usage_gb", "usageGB"] with
      | some n => n
      | none =>
        match ebScaled it 1000000 ["traffic_mb", "trafficMB", "usage_mb", "usageMB"] with
        | some n => n
        | none =>
          match ebUnit it ["traffic", "usage"] with
          | some n => n
          | none =>
            match ebTotals it with
            | some n => n
            | none =>
              let n1 : Int :=
                match h1 : jGetObj it "value" with
                | some m => extract_bytes m
                | none => 0
              if n1 ≠ 0 then n1
              else
                let n2 : Int :=
                  match h2 : jGetObj it "metrics" with
                  | some m => extract_bytes m
                  | none => 0
                if n2 ≠ 0 then n2
                else
                  let n3 : Int :=
                    match h3 : jGetObj it "stat" with
                    | some m => extract_bytes m
                    | none => 0
                  if n3 ≠ 0 then n3
                  else
                    match h4 : jGetObj it "stats" with
                    | some m => extract_bytes m
                    | none => 0
termination_by sizeOf it
decreasing_by
  · exact jGetObj_sizeOf h1
  · exact jGetObj_sizeOf h2
  · exact jGetObj_sizeOf h3
  · exact jGetObj_sizeOf h4

/-- First truthy value among `keys` in a mapping, rendered with `str`. -/
def probeTruthyStr (kvs : List (String × Json)) : List String → Option String
  | [] => none
  | k :: ks =>
    let v := jGet kvs k
    if pyTruthy v then some (pyStr v) else probeTruthyStr kvs ks

/-- Nested-grouping probe of `extract_date_str`. -/
def nestedGroupingStr (it : List (String × Json)) : List String → Option String
  | [] => none
  | k :: ks =>
    match jGetObj it k with
    | some m =>
      match probeTruthyStr m ["date", "day", "timestamp", "time", "bucket",
          "startDate", "value"] with
      | some s => some s
      | none => nestedGroupingStr it ks
    | none => nestedGroupingStr it ks

/-- Source `extract_date_str`: direct date-token keys, then one level under
a grouping object. -/
def extract_date_str (it : List (String × Json)) : Option String :=
  match probeTruthyStr it ["date", "day", "timestamp", "time", "bucket",
      "startDate", "grouping_key", "groupingValue", "group", "key"] with
  | some s => some s
  | none => nestedGroupingStr it ["grouping", "groupKey", "grouping_key"]

/-- Decimal digit character of `n % 10`. -/
def digitChar10 (n : Nat) : Char :=
  match n % 10 with
  | 0 => '0'
  | 1 => '1'
  | 2 => '2'
  | 3 => '3'
  | 4 => '4'
  | 5 => '5'
  | 6 => '6'
  | 7 => '7'
  | 8 => '8'
  | _ => '9'

/-- Four-digit zero-padded rendering (the `%Y` of `strftime`). -/
def pad4 (n : Nat) : List Char :=
  [digitChar10 (n / 1000), digitChar10 (n / 100), digitChar10 (n / 10), digitChar10 n]

/-- Two-digit zero-padded rendering (the `%m`/`%d` of `strftime`). -/
def pad2 (n : Nat) : List Char := [digitChar10 (n / 10), digitChar10 n]

/-- `d.strftime("%Y-%m-%d")` on characters. -/
def dateKeyL (d : Date) : List Char :=
  pad4 d.year ++ '-' :: (pad2 d.month ++ '-' :: pad2 d.day)

/-- `d.strftime("%Y-%m-%d")`. -/
def dateKey (d : Date) : String := ⟨dateKeyL d⟩

/-- The candidate list containers probed by `_daily_bytes_from_traffic`:
list values of the container keys, or the `items` list of a mapping value,
in key order. -/
def containersOf (traffic : Json) : List (List Json) :=
  match traffic with
  | .obj kvs =>
    ["data", "result", "records", "rows", "items"].filterMap (fun key =>
      match jGet kvs key with
      | .arr xs => some xs
      | .obj m =>
        match jGet m "items" with
        | .arr ys => some ys
        | _ => none
      | _ => none)
  | _ => []

/-- One item's contribution in `_daily_bytes_from_traffic`: mappings with
a truthy date token that parses to a date yield the formatted day key and
their extracted bytes; everything else is skipped. -/
def dayContribution (item : Json) : Option (String × Int) :=
  match item with
  | .obj kvs =>
    match extract_date_str kvs with
    | none => none
    | some ds =>
      if ds = "" then none
      else
        match _parse_date_guess ds with
        | none => none
        | some d => some (dateKey d, extract_bytes kvs)
  | _ => none

/-- Insertion-ordered alist update, as Python `result[key] = v`. -/
def alSet (l : List (String × Int)) (k : String) (v : Int) : List (String × Int) :=
  match l with
  | [] => [(k, v)]
  | (k0, v0) :: r => if k0 = k then (k0, v) :: r else (k0, v0) :: alSet r k v

/-- Alist lookup, as Python `result.get(key)`. -/
def alGet (l : List (String × Int)) (k : String) : Option Int :=
  (l.find? (fun p => p.1 == k)).map (·.2)

/-- `result[key] = result.get(key, 0) + b` for one item. -/
def dayStep (acc : List (String × Int)) (item : Json) : List (String × Int) :=
  match dayContribution item with
  | none => acc
  | some kb => alSet acc kb.1 ((alGet acc kb.1).getD 0 + kb.2)

/-- Source `_daily_bytes_from_traffic`: accumulate every item of every
candidate container into a day-keyed byte mapping. -/
def _daily_bytes_from_traffic (traffic : Json) : List (String × Int) :=
  (containersOf traffic).foldl (fun acc data => data.foldl dayStep acc) []

/-- The ordered contributions of a list of items to the day key `k`
(specification device for the accumulation behaviour of
`_daily_bytes_from_traffic`). -/
def contribsOf (items : List Json) (k : String) : List Int :=
  ((items.filterMap dayContribution).filter (fun p => p.1 = k)).map (·.2)

/-- Concrete item used in the C6 witness. -/
def itemA : Json := Json.obj [("date", Json.str "2024-01-01"), ("rx_tx_bytes", Json.num 5)]

/-- Concrete item used in the C6 witness, same date as `itemA`. -/
def itemB : Json := Json.obj [("date", Json.str "2024-01-01"), ("bytes", Json.num 7)]

/-! ## Snapshot extraction (source `_extract_subs_info`) -/

/-- The snapshot record of `_extract_subs_info`: numeric fields keep the
coerced float or the raw value, the others keep `str(v)`. -/
structure SubsInfo where
  limit : Option Json
  used : Option Json
  period_start : Option String
  period_end : Option String
  plan : Option String

/-- The all-`None` snapshot `_extract_subs_info` starts from. -/
def emptySubsInfo : SubsInfo := ⟨none, none, none, none, none⟩

/-- `keys_limit` of the source. -/
def keys_limit : List String :=
  ["traffic_limit", "limit", "data_limit", "max_traffic", "max_usage", "max"]

/-- `keys_used` of the source. -/
def keys_used : List String :=
  ["traffic_per_period", "used", "usage", "traffic_used", "data_used"]

/-- `keys_start` of the source. -/
def keys_start : List String :=
  ["current_period_start", "period_start", "start_date", "cycle_start", "from",
   "startAt", "start_at"]

/-- `keys_end` of the source. -/
def keys_end : List String :=
  ["current_period_end", "period_end", "end_date", "cycle_end", "to", "endAt",
   "end_at", "next_billing_date", "renews_at", "valid_until", "expires_at"]

/-- `keys_plan` of the source. -/
def keys_plan : List String := ["plan", "name", "subscription_plan", "package_name"]

/-- Numeric-field probe: first key present and non-`None`, `float`-coerced
with the raw value kept when coercion fails. -/
def probeNumField (node : List (String × Json)) : List String → Option Json
  | [] => none
  | k :: ks =>
    let v := jGet node k
    if v.isNull then probeNumField node ks
    else
      some (match pyFloatJ v with
        | some q => Json.num q
        | none => v)

/-- Source `_first_mapping_candidate`. -/
def _first_mapping_candidate : Json → Option (List (String × Json))
  | .obj kvs => some kvs
  | .arr (x :: _) =>
    match x with
    | .obj kvs => some kvs
    | _ => none
  | _ => none

/-- The root nodes `_extract_subs_info` scans: the response itself plus the
values of any present wrapper keys. -/
def subsRoots (subscriptions : Json) : List Json :=
  subscriptions ::
    (match subscriptions with
     | .obj kvs => ["data", "subscription", "result"].filterMap (jGetRaw kvs)
     | _ => [])

/-- The mapping candidates scanned by `_extract_subs_info`. -/
def subsCandidates (subscriptions : Json) : List (List (String × Json)) :=
  (subsRoots subscriptions).filterMap _first_mapping_candidate

/-- `if info[field] is None: info[field] = probe(...)`. -/
def fillField {α : Type} (cur : Option α) (probe : Option α) : Option α :=
  match cur with
  | some v => some v
  | none => probe

/-- One node of the `_extract_subs_info` scan: fill any still-absent
field. -/
def subsInfoStep (info : SubsInfo) (node : List (String × Json)) : SubsInfo :=
  { limit := fillField info.limit (probeNumField node keys_limit)
    used := fillField info.used (probeNumField node keys_used)
    period_start := fillField info.period_start (probeTruthyStr node keys_start)
    period_end := fillField info.period_end (probeTruthyStr node keys_end)
    plan := fillField info.plan (probeTruthyStr node keys_plan) }

/-- Source `_extract_subs_info`. -/
def _extract_subs_info (subscriptions : Json) : SubsInfo :=
  match subscriptions with
  | .obj _ => (subsCandidates subscriptions).foldl subsInfoStep emptySubsInfo
  | .arr _ => (subsCandidates subscriptions).foldl subsInfoStep emptySubsInfo
  | _ => emptySubsInfo

/-! ## Usage formatter (source `format_usage`) -/

/-- The raw `limit` / coerced `used` pair gathered at the top of
`format_usage` (direct keys, wrapper keys, or the first list element). -/
def fuLimitUsed (subscriptions : Json) : Json × Option ℚ :=
  match subscriptions with
  | .obj kvs =>
    let limit0 := pyOr (jGet kvs "traffic_limit") (jGet kvs "limit")
    let up0 := jGet kvs "traffic_per_period"
    let used0 : Option ℚ := if up0.isNull then none else pyFloatJ up0
    ["data", "subscription", "result"].foldl
      (fun (st : Json × Option ℚ) key =>
        match jGetRaw kvs key with
        | some (Json.obj sub) =>
          (pyOr st.1 (jGet sub "traffic_limit"),
           match st.2 with
           | some u => some u
           | none =>
             let up := jGet sub "traffic_per_period"
             if up.isNull then none else pyFloatJ up)
        | _ => st)
      (limit0, used0)
  | .arr (first :: _) =>
    match first with
    | .obj kvs =>
      (jGet kvs "traffic_limit",
       let up := jGet kvs "traffic_per_period"
       if up.isNull then none else pyFloatJ up)
    | _ => (Json.null, none)
  | _ => (Json.null, none)

/-- `total_used_gb` of `format_usage`: the aggregate `metadata.totals`
figure, else the summed `rx_tx_bytes` of the itemized `data` list; `none`
models a caught failure or absence. -/
def fuTotalUsedGB (traffic : Json) : Option ℚ :=
  let viaTotals : Option ℚ :=
    match traffic with
    | .obj kvs =>
      match jGetD kvs "metadata" (Json.obj []) with
      | .obj md =>
        match jGetD md "totals" (Json.obj []) with
        | .obj tt =>
          let trx := jGet tt "total_rx_tx"
          if pyIsNum trx then some (qDiv (ratOfNum trx) (qOfNat 1000000000)) else none
        | _ => none
      | _ => none
    | _ => none
  match viaTotals with
  | some g => some g
  | none =>
    match traffic with
    | .obj kvs =>
      match jGet kvs "data" with
      | .arr items =>
        (items.foldlM
          (fun (acc : Int) item =>
            match item with
            | Json.obj ikvs => (pyIntJ (jGetD ikvs "rx_tx_bytes" (Json.num 0))).map (acc + ·)
            | _ => some acc)
          (0 : Int)).map (fun tb => qDiv (qOfInt tb) (qOfNat 1000000000))
      | _ => none
    | _ => none

/-- `used_final` of `format_usage`: the subscription-provided figure if
present, else the computed GB total. -/
def fuUsedFinal (subscriptions traffic : Json) : Option ℚ :=
  match (fuLimitUsed subscriptions).2 with
  | some u => some u
  | none => fuTotalUsedGB traffic

/-- `limit_final` of `format_usage`: `float` of the raw limit, else
`float` of the snapshot's limit. -/
def fuLimitFinal (subscriptions : Json) : Option ℚ :=
  let limit := (fuLimitUsed subscriptions).1
  match (if limit.isNull then none else pyFloatJ limit) with
  | some lf => some lf
  | none =>
    match (_extract_subs_info subscriptions).limit with
    | some lv => pyFloatJ lv
    | none => none

/-- Source `_date_only_text` (inner helper of `format_usage`). -/
def _date_only_text (val : Option String) : Option String :=
  match val with
  | none => none
  | some v =>
    if v = "" then none
    else
      let s := isoCleanup (pyStripL v.data)
      let ten := (s.take 10).filter (fun c => c != '-')
      if 10 ≤ s.length && (s.get? 4 == some '-') && (s.get? 7 == some '-') &&
          !ten.isEmpty && ten.all isDigitC then
        some ⟨s.take 10⟩
      else some ⟨s⟩

/-- `o or "?"` on an optional string. -/
def pyOrStr (o : Option String) (d : String) : String :=
  match o with
  | some s => if s ≠ "" then s else d
  | none => d

/-- Round to the nearest integer, ties to even (the rounding of Python
float formatting). -/
def roundHalfEven (x : ℚ) : Int :=
  let f := x.floor
  let r := qSub x (qOfInt f)
  if r < Rat.divInt 1 2 then f
  else if Rat.divInt 1 2 < r then f + 1
  else if f % 2 = 0 then f else f + 1

/-- `f"{x:.2f}"`. -/
def fmt2 (x : ℚ) : String :=
  let n := roundHalfEven (qMul x (qOfNat 100))
  let a := n.natAbs
  (if n < 0 then "-" else "") ++ toString (a / 100) ++ "." ++
    ⟨[digitChar10 (a % 100 / 10), digitChar10 a]⟩

/-- The `Subscription period:` line of `format_usage`, when either end is
known. -/
def fuPeriodLines (info : SubsInfo) : List String :=
  if pyTruthyOS info.period_start || pyTruthyOS info.period_end then
    ["Subscription period: " ++ pyOrStr (_date_only_text info.period_start) "?" ++
      " → " ++ pyOrStr (_date_only_text info.period_end) "?"]
  else []

/-- The usage section of `format_usage`. -/
def fuUsageLines (used_final limit_final : Option ℚ) : List String :=
  match used_final, limit_final with
  | some u, some l =>
    ["Usage: " ++ fmt2 u ++ " GB of " ++ fmt2 l ++ " GB",
     "Remaining: " ++ fmt2 (max (qSub l u) 0) ++ " GB"]
  | some u, none => ["Used: " ++ fmt2 u ++ " GB"]
  | none, some l => ["Limit: " ++ fmt2 l ++ " GB"]
  | none, none => []

/-- The line list built by `format_usage` (after its early return); the
trailing timestamp is passed in already rendered. -/
def format_usage_lines (subscriptions traffic : Json)
    (timeframe_label proxy_type : Option String) (asOf : String) : List String :=
  let subs_info := _extract_subs_info subscriptions
  let title := "Decodo Usage" ++
    (match proxy_type with
     | some p => if p ≠ "" then " — " ++ p else ""
     | none => "")
  [title] ++
    (match timeframe_label with
     | some lb => if lb ≠ "" then ["Period: " ++ lb] else fuPeriodLines subs_info
     | none => fuPeriodLines subs_info) ++
    (if pyTruthyOS subs_info.plan then ["Plan: " ++ subs_info.plan.getD ""] else []) ++
    fuUsageLines (fuUsedFinal subscriptions traffic) (fuLimitFinal subscriptions) ++
    ["", "As of: " ++ asOf]

/-- Source `format_usage`: the joined report, or the explicit
could-not-determine message when no used figure resolved and the raw limit
is `None`. -/
def format_usage (subscriptions traffic : Json)
    (timeframe_label proxy_type : Option String) (asOf : String) : String :=
  if (fuUsedFinal subscriptions traffic).isNone && (fuLimitUsed subscriptions).1.isNull then
    "Couldn't determine usage from API response."
  else
    String.intercalate "\n"
      (format_usage_lines subscriptions traffic timeframe_label proxy_type asOf)

/-! ## Date spans (source `_build_date_span` and the chart series)

Python's `start + dt.timedelta(days=i)` is ordinal arithmetic:
`date.fromordinal(start.toordinal() + i)`, i.e. `i` steps to the next
calendar day.  We model the step (`succDate`), its iteration (`addDays`)
and the ordinal (`toRD`, the value of `date.toordinal()`), and prove they
agree. -/

/-- Days before month `m` in a year with the given leap flag. -/
def daysBefore (leap : Bool) (m : Nat) : Nat :=
  (match m with
   | 1 => 0
   | 2 => 31
   | 3 => 59
   | 4 => 90
   | 5 => 120
   | 6 => 151
   | 7 => 181
   | 8 => 212
   | 9 => 243
   | 10 => 273
   | 11 => 304
   | 12 => 334
   | _ => 0) + (if leap ∧ 3 ≤ m then 1 else 0)

/-- `d.toordinal()`: proleptic Gregorian ordinal, `1` for 0001-01-01. -/
def toRD (d : Date) : Int :=
  365 * ((d.year - 1 : Nat) : Int) + ((d.year - 1) / 4 : Nat) - ((d.year - 1) / 100 : Nat)
    + ((d.year - 1) / 400 : Nat) + daysBefore (isLeap d.year) d.month + d.day

/-- The next calendar day. -/
def succDate (d : Date) : Date :=
  if d.day < _last_day_of_month d.year d.month then ⟨d.year, d.month, d.day + 1⟩
  else if d.month < 12 then ⟨d.year, d.month + 1, 1⟩
  else ⟨d.year + 1, 1, 1⟩

/-- `d + datetime.timedelta(days=i)`: `i` steps to the next calendar day. -/
def addDays (d : Date) (i : Nat) : Date := succDate^[i] d

/-- `(e - s).days` via ordinals (non-negative once the pair is ordered). -/
def daysBetween (s e : Date) : Nat := (toRD e - toRD s).toNat

/-- Source `_build_date_span`: swap a reversed pair, then enumerate
`start + dt.timedelta(days=i)` for `i` in `range(days + 1)`. -/
def _build_date_span (start stop : Date) : List Date :=
  let p := if dlt stop start then (stop, start) else (start, stop)
  (List.range (daysBetween p.1 p.2 + 1)).map (fun i => addDays p.1 i)

/-- The chart's per-day series (source `_handle_chart`, the `y_gb`
comprehension): `max(0.0, float(per_day_bytes.get(key, 0)) / 1e9)` for
each day of the span. -/
def dailySeriesGB (days : List Date) (perDay : List (String × Int)) : List ℚ :=
  days.map (fun d => max 0 (qDiv (qOfInt ((alGet perDay (dateKey d)).getD 0)) (qOfNat 1000000000)))

/-- Subscriptions input of the C3 counterexample: a present but
non-numeric `traffic_limit`. -/
def subsCtr : Json := Json.obj [("traffic_limit", Json.str "abc")]

/-- Traffic input of the C3 counterexample: an empty response. -/
def trafficCtr : Json := Json.obj []

/-- Subscriptions input of the C3 witness: resolvable used and limit. -/
def subsW : Json :=
  Json.obj [("traffic_limit", Json.num 100), ("traffic_per_period", Json.num 5)]

/-- Query function for the C1 counterexample: a transport-style failure
(an exception that is not an `HTTPStatusError`) for candidate `"a"`,
success for `"b"`. -/
def qTransport : Option String → Except QueryErr Nat
  | some "a" => .error (.exc "transport failure")
  | some "b" => .ok 7
  | _ => .error (.exc "unused")

/-- Query function for the C1 witness: a 500 for candidate `"x"`. -/
def qHttp500 : Option String → Except QueryErr Nat
  | some "x" => .error (.http 500 "server error")
  | _ => .ok 0

/-! # Theorems -/

/-! ## Calendar lemmas for the date span -/

/-- `daysBefore` of the next month adds the current month's length. -/
theorem daysBefore_succ : ∀ (l : Bool), ∀ m < 12, 1 ≤ m →
    daysBefore l (m + 1) = daysBefore l m + lastDayAux l m := by decide

/-- Month lengths are at least 28. -/
theorem lastDayAux_ge : ∀ (l : Bool), ∀ m < 13, 28 ≤ lastDayAux l m := by decide

/-- `daysBefore` is monotone in the month. -/
theorem daysBefore_mono : ∀ (l : Bool), ∀ m2 < 13, ∀ m1 < 13, m1 ≤ m2 →
    daysBefore l m1 ≤ daysBefore l m2 := by decide

/-- January has no preceding days. -/
theorem daysBefore_one : ∀ l : Bool, daysBefore l 1 = 0 := by decide

/-- Days before December. -/
theorem daysBefore_twelve : ∀ l : Bool, daysBefore l 12 = 334 + (if l then 1 else 0) := by
  decide

/-- December has 31 days. -/
theorem lastDayAux_twelve : ∀ l : Bool, lastDayAux l 12 = 31 := by decide

/-- The year-boundary division identity behind the ordinal step. -/
theorem div_diff_leap (y : Nat) (hy : 1 ≤ y) :
    ((y / 4 : Nat) : Int) - ((y - 1) / 4 : Nat)
      - (((y / 100 : Nat) : Int) - ((y - 1) / 100 : Nat))
      + (((y / 400 : Nat) : Int) - ((y - 1) / 400 : Nat))
      = if isLeap y then 1 else 0 := by
  have hy1 : y - 1 + 1 = y := by omega
  have e4 := Nat.succ_div (y - 1) 4
  have e100 := Nat.succ_div (y - 1) 100
  have e400 := Nat.succ_div (y - 1) 400
  rw [hy1] at e4 e100 e400
  simp only [Nat.dvd_iff_mod_eq_zero] at e4 e100 e400
  by_cases h4 : y % 4 = 0 <;> by_cases h100 : y % 100 = 0 <;> by_cases h400 : y % 400 = 0 <;>
    simp [h4, h100, h400] at e4 e100 e400 ⊢ <;>
    simp [isLeap, h4, h100, h400] <;> omega

/-- `toRD` advances by exactly one along `succDate`. -/
theorem toRD_succDate (d : Date) (h : DValid d) : toRD (succDate d) = toRD d + 1 := by
  obtain ⟨y, m, dd⟩ := d
  obtain ⟨hy, hm1, hm12, hd1, hd2⟩ := h
  simp only at hy hm1 hm12 hd1 hd2
  unfold _last_day_of_month at hd2
  unfold succDate _last_day_of_month
  simp only
  by_cases hday : dd < lastDayAux (isLeap y) m
  · rw [if_pos hday]
    simp only [toRD]
    omega
  · rw [if_neg hday]
    by_cases hm : m < 12
    · rw [if_pos hm]
      have hdb := daysBefore_succ (isLeap y) m hm hm1
      simp only [toRD]
      omega
    · rw [if_neg hm]
      have hm' : m = 12 := by omega
      subst hm'
      have h31 := lastDayAux_twelve (isLeap y)
      have hd12 := daysBefore_twelve (isLeap y)
      have h1 := daysBefore_one (isLeap (y + 1))
      have hdiv := div_diff_leap y hy
      simp only [toRD]
      have hyy : y + 1 - 1 = y := by omega
      rw [hyy, h1]
      by_cases hL : isLeap y = true
      · rw [if_pos hL] at hdiv hd12
        omega
      · rw [if_neg hL] at hdiv hd12
        omega

/-- Constructor form of `DValid`. -/
theorem DValid_mk (y m dd : Nat) (h1 : 1 ≤ y) (h2 : 1 ≤ m) (h3 : m ≤ 12)
    (h4 : 1 ≤ dd) (h5 : dd ≤ _last_day_of_month y m) : DValid ⟨y, m, dd⟩ :=
  ⟨h1, h2, h3, h4, h5⟩

/-- Month lengths are at least 28. -/
theorem lastDay_ge28 (y m : Nat) (h1 : 1 ≤ m) (h2 : m ≤ 12) :
    28 ≤ _last_day_of_month y m := by
  unfold _last_day_of_month
  exact lastDayAux_ge _ m (by omega)

/-- December has 31 days in every year. -/
theorem lastDay_twelve (y : Nat) : _last_day_of_month y 12 = 31 := lastDayAux_twelve _

/-- `succDate` preserves validity. -/
theorem succDate_valid (d : Date) (h : DValid d) : DValid (succDate d) := by
  obtain ⟨y, m, dd⟩ := d
  obtain ⟨hy, hm1, hm12, hd1, hd2⟩ := h
  simp only at hy hm1 hm12 hd1 hd2
  unfold succDate
  simp only
  by_cases hday : dd < _last_day_of_month y m
  · rw [if_pos hday]
    exact DValid_mk _ _ _ hy hm1 hm12 (by omega) (by omega)
  · rw [if_neg hday]
    by_cases hm : m < 12
    · rw [if_pos hm]
      have := lastDay_ge28 y (m + 1) (by omega) (by omega)
      exact DValid_mk _ _ _ hy (by omega) (by omega) (by omega) (by omega)
    · rw [if_neg hm]
      have := lastDay_ge28 (y + 1) 1 (by omega) (by omega)
      exact DValid_mk _ _ _ (by omega) (by omega) (by omega) (by omega) (by omega)

/-- December 31 rolls over to January 1 of the next year. -/
theorem succDate_dec31 (y : Nat) : succDate ⟨y, 12, 31⟩ = ⟨y + 1, 1, 1⟩ := by
  unfold succDate
  rw [lastDay_twelve]
  simp

/-- `addDays` keeps validity and advances `toRD` by its argument. -/
theorem addDays_spec (d : Date) (h : DValid d) (n : Nat) :
    DValid (addDays d n) ∧ toRD (addDays d n) = toRD d + n := by
  induction n with
  | zero => exact ⟨h, by simp [addDays]⟩
  | succ k ih =>
    have hstep : addDays d (k + 1) = succDate (addDays d k) :=
      Function.iterate_succ_apply' _ _ _
    refine ⟨by rw [hstep]; exact succDate_valid _ ih.1, ?_⟩
    rw [hstep, toRD_succDate _ ih.1, ih.2]
    push_cast
    ring

/-- Same-year strict monotonicity of `toRD`. -/
theorem toRD_lt_same_year (a b : Date) (ha : DValid a) (hb : DValid b)
    (hy : a.year = b.year)
    (h : a.month < b.month ∨ (a.month = b.month ∧ a.day < b.day)) :
    toRD a < toRD b := by
  obtain ⟨y1, m1, d1⟩ := a
  obtain ⟨y2, m2, d2⟩ := b
  obtain ⟨hya, hm1a, hm12a, hd1a, hd2a⟩ := ha
  obtain ⟨hyb, hm1b, hm12b, hd1b, hd2b⟩ := hb
  simp only at *
  subst hy
  unfold _last_day_of_month at hd2a hd2b
  simp only [toRD]
  rcases h with h | ⟨hm, hd⟩
  · have hdb := daysBefore_succ (isLeap y1) m1 (by omega) hm1a
    have hmono := daysBefore_mono (isLeap y1) m2 (by omega) (m1 + 1) (by omega) (by omega)
    omega
  · subst hm
    omega

/-- Year starts are ordered by `toRD`. -/
theorem toRD_year_start_mono (y1 y2 : Nat) (h1 : 1 ≤ y1) (h : y1 ≤ y2) :
    toRD ⟨y1, 1, 1⟩ ≤ toRD ⟨y2, 1, 1⟩ := by
  induction y2, h using Nat.le_induction with
  | base => exact le_refl _
  | succ n hn ih =>
    have hv : DValid ⟨n, 12, 31⟩ :=
      DValid_mk _ _ _ (by omega) (by omega) (by omega) (by omega) (by rw [lastDay_twelve])
    have hv11 : DValid ⟨n, 1, 1⟩ :=
      DValid_mk _ _ _ (by omega) (by omega) (by omega) (by omega)
        (by have := lastDay_ge28 n 1 (by omega) (by omega); omega)
    have hstep := toRD_succDate ⟨n, 12, 31⟩ hv
    rw [succDate_dec31] at hstep
    have hlt : toRD ⟨n, 1, 1⟩ ≤ toRD ⟨n, 12, 31⟩ :=
      le_of_lt (toRD_lt_same_year _ _ hv11 hv rfl (Or.inl (by show (1 : Nat) < 12; omega)))
    omega

/-- Full strict monotonicity of `toRD` on valid dates. -/
theorem toRD_lt_of_dlt (a b : Date) (ha : DValid a) (hb : DValid b) (h : dlt a b) :
    toRD a < toRD b := by
  rcases h with hy | ⟨hy, hrest⟩
  · -- different years
    have h1 : toRD a ≤ toRD ⟨a.year, 12, 31⟩ := by
      have hvend : DValid (⟨a.year, 12, 31⟩ : Date) :=
        DValid_mk _ _ _ ha.1 (by omega) (by omega) (by omega) (by rw [lastDay_twelve])
      by_cases hm : a.month = 12
      · by_cases hd : a.day = 31
        · have : a = (⟨a.year, 12, 31⟩ : Date) := by
            obtain ⟨y, m, dd⟩ := a
            simp only at hm hd ⊢
            rw [hm, hd]
          rw [← this]
        · refine le_of_lt (toRD_lt_same_year _ _ ha hvend rfl (Or.inr ⟨hm, ?_⟩))
          show a.day < 31
          have := ha.2.2.2.2
          rw [hm, lastDay_twelve] at this
          omega
      · refine le_of_lt (toRD_lt_same_year _ _ ha hvend rfl (Or.inl ?_))
        show a.month < 12
        have := ha.2.2.1
        omega
    have hvend : DValid (⟨a.year, 12, 31⟩ : Date) :=
      DValid_mk _ _ _ ha.1 (by omega) (by omega) (by omega) (by rw [lastDay_twelve])
    have h2 := toRD_succDate ⟨a.year, 12, 31⟩ hvend
    rw [succDate_dec31] at h2
    have h3 : toRD ⟨a.year + 1, 1, 1⟩ ≤ toRD ⟨b.year, 1, 1⟩ :=
      toRD_year_start_mono _ _ (by have := ha.1; omega) (by omega)
    have h4 : toRD ⟨b.year, 1, 1⟩ ≤ toRD b := by
      have hv11 : DValid (⟨b.year, 1, 1⟩ : Date) :=
        DValid_mk _ _ _ hb.1 (by omega) (by omega) (by omega)
          (by have := lastDay_ge28 b.year 1 (by omega) (by omega); omega)
      by_cases hm : b.month = 1
      · by_cases hd : b.day = 1
        · have : b = (⟨b.year, 1, 1⟩ : Date) := by
            obtain ⟨y, m, dd⟩ := b
            simp only at hm hd ⊢
            rw [hm, hd]
          rw [← this]
        · refine le_of_lt (toRD_lt_same_year _ _ hv11 hb rfl (Or.inr ⟨hm.symm, ?_⟩))
          show (1 : Nat) < b.day
          have := hb.2.2.2.1
          omega
      · refine le_of_lt (toRD_lt_same_year _ _ hv11 hb rfl (Or.inl ?_))
        show (1 : Nat) < b.month
        have := hb.2.1
        omega
    omega
  · exact toRD_lt_same_year a b ha hb hy hrest

/-- Trichotomy for the date order. -/
theorem dlt_trichotomy (a b : Date) : dlt a b ∨ a = b ∨ dlt b a := by
  obtain ⟨y1, m1, d1⟩ := a
  obtain ⟨y2, m2, d2⟩ := b
  simp only [dlt, Date.mk.injEq]
  omega

/-- Order from ordinals, valid dates. -/
theorem dlt_of_toRD_lt (a b : Date) (ha : DValid a) (hb : DValid b)
    (h : toRD a < toRD b) : dlt a b := by
  rcases dlt_trichotomy a b with hd | hd | hd
  · exact hd
  · subst hd; omega
  · have := toRD_lt_of_dlt b a hb ha hd; omega

/-- Non-strict order from ordinals, valid dates. -/
theorem dle_of_toRD_le (a b : Date) (ha : DValid a) (hb : DValid b)
    (h : toRD a ≤ toRD b) : dle a b := by
  rcases dlt_trichotomy a b with hd | hd | hd
  · exact Or.inl hd
  · exact Or.inr hd
  · have := toRD_lt_of_dlt b a hb ha hd; omega

/-- Ordinals respect the order. -/
theorem toRD_le_of_dle (a b : Date) (ha : DValid a) (hb : DValid b)
    (h : dle a b) : toRD a ≤ toRD b := by
  rcases h with h | h
  · exact le_of_lt (toRD_lt_of_dlt a b ha hb h)
  · subst h; exact le_refl _

/-- `toRD` is injective on valid dates. -/
theorem eq_of_toRD_eq (a b : Date) (ha : DValid a) (hb : DValid b)
    (h : toRD a = toRD b) : a = b := by
  rcases dlt_trichotomy a b with hd | hd | hd
  · have := toRD_lt_of_dlt a b ha hb hd; omega
  · exact hd
  · have := toRD_lt_of_dlt b a hb ha hd; omega

/-- Structure of the enumerated span for an ordered valid pair: length,
endpoints, strict date order, and exact coverage of the inclusive
interval. -/
theorem span_core (lo hi : Date) (hlo : DValid lo) (hhi : DValid hi) (hle : dle lo hi) :
    ((List.range (daysBetween lo hi + 1)).map (addDays lo)).length
        = daysBetween lo hi + 1 ∧
    ((List.range (daysBetween lo hi + 1)).map (addDays lo)).get? 0 = some lo ∧
    ((List.range (daysBetween lo hi + 1)).map (addDays lo)).get? (daysBetween lo hi)
        = some hi ∧
    ((List.range (daysBetween lo hi + 1)).map (addDays lo)).Pairwise dlt ∧
    (∀ x ∈ (List.range (daysBetween lo hi + 1)).map (addDays lo),
      DValid x ∧ dle lo x ∧ dle x hi) ∧
    (∀ x, DValid x → dle lo x → dle x hi →
      x ∈ (List.range (daysBetween lo hi + 1)).map (addDays lo)) := by
  have hrd := toRD_le_of_dle lo hi hlo hhi hle
  have hn : (daysBetween lo hi : Int) = toRD hi - toRD lo := by
    unfold daysBetween
    omega
  refine ⟨by simp, ?_, ?_, ?_, ?_, ?_⟩
  · simp [List.get?_map, List.get?_range, addDays]
  · have hAdd := addDays_spec lo hlo (daysBetween lo hi)
    have heq : addDays lo (daysBetween lo hi) = hi := by
      refine eq_of_toRD_eq _ _ hAdd.1 hhi ?_
      rw [hAdd.2]
      omega
    simp [List.get?_map, List.get?_range, heq]
  · rw [List.pairwise_iff_get]
    intro i j hij
    rw [List.get_map, List.get_map, List.get_range, List.get_range]
    have hi' := addDays_spec lo hlo i
    have hj' := addDays_spec lo hlo j
    refine dlt_of_toRD_lt _ _ hi'.1 hj'.1 ?_
    rw [hi'.2, hj'.2]
    have : (i : Nat) < (j : Nat) := hij
    omega
  · intro x hx
    rcases List.mem_map.mp hx with ⟨i, hir, hieq⟩
    have hilt := List.mem_range.mp hir
    have hAdd := addDays_spec lo hlo i
    subst hieq
    refine ⟨hAdd.1, ?_, ?_⟩
    · refine dle_of_toRD_le _ _ hlo hAdd.1 ?_
      rw [hAdd.2]
      omega
    · refine dle_of_toRD_le _ _ hAdd.1 hhi ?_
      rw [hAdd.2]
      omega
  · intro x hxv hlox hxhi
    have h1 := toRD_le_of_dle lo x hlo hxv hlox
    have h2 := toRD_le_of_dle x hi hxv hhi hxhi
    have hi0 : (((toRD x - toRD lo).toNat : Nat) : Int) = toRD x - toRD lo := by omega
    have hAdd := addDays_spec lo hlo (toRD x - toRD lo).toNat
    have heq : addDays lo (toRD x - toRD lo).toNat = x := by
      refine eq_of_toRD_eq _ _ hAdd.1 hxv ?_
      rw [hAdd.2]
      omega
    refine List.mem_map.mpr ⟨(toRD x - toRD lo).toNat, List.mem_range.mpr ?_, heq⟩
    omega

/-- Values of the chart series: as long as its day list, non-negative,
zero on days absent from the mapping, all zero on the empty mapping. -/
theorem seriesGB_facts (days : List Date) (perDay : List (String × Int)) :
    (dailySeriesGB days perDay).length = days.length ∧
    (∀ v ∈ dailySeriesGB days perDay, 0 ≤ v) ∧
    (∀ i d, days.get? i = some d → alGet perDay (dateKey d) = none →
      (dailySeriesGB days perDay).get? i = some 0) ∧
    (∀ v ∈ dailySeriesGB days [], v = 0) := by
  refine ⟨by simp [dailySeriesGB], ?_, ?_, ?_⟩
  · intro v hv
    rcases List.mem_map.mp hv with ⟨d, _, hdeq⟩
    rw [← hdeq]
    exact le_max_left _ _
  · intro i d hgd hnone
    unfold dailySeriesGB
    rw [List.get?_map, hgd]
    simp [hnone]
    decide
  · intro v hv
    rcases List.mem_map.mp hv with ⟨d, _, hdeq⟩
    rw [← hdeq]
    simp [alGet]
    decide

/-- C7: `_build_date_span` swaps a reversed pair, covers every calendar
date of the inclusive span exactly once in date order with length
`daysBetween + 1`, and the chart series over it (bytes divided by 1e9) is
as long as the span, never negative, `0` on dates absent from the mapping,
and all `0.0` for the empty mapping. -/
theorem c7_span_series (s e : Date) (hs : DValid s) (he : DValid e)
    (lo hi : Date) (hlo : lo = if dlt e s then e else s)
    (hhi : hi = if dlt e s then s else e) (perDay : List (String × Int)) :
    (_build_date_span s e).length = daysBetween lo hi + 1 ∧
    (_build_date_span s e).get? 0 = some lo ∧
    (_build_date_span s e).get? (daysBetween lo hi) = some hi ∧
    (_build_date_span s e).Pairwise dlt ∧
    (∀ x ∈ _build_date_span s e, DValid x ∧ dle lo x ∧ dle x hi) ∧
    (∀ x, DValid x → dle lo x → dle x hi → x ∈ _build_date_span s e) ∧
    (dailySeriesGB (_build_date_span s e) perDay).length = daysBetween lo hi + 1 ∧
    (∀ v ∈ dailySeriesGB (_build_date_span s e) perDay, 0 ≤ v) ∧
    (∀ i d, (_build_date_span s e).get? i = some d →
      alGet perDay (dateKey d) = none →
      (dailySeriesGB (_build_date_span s e) perDay).get? i = some 0) ∧
    (∀ v ∈ dailySeriesGB (_build_date_span s e) [], v = 0) := by
  subst hlo hhi
  have hlov : DValid (if dlt e s then e else s) := by split <;> assumption
  have hhiv : DValid (if dlt e s then s else e) := by split <;> assumption
  have hle : dle (if dlt e s then e else s) (if dlt e s then s else e) := by
    by_cases hc : dlt e s
    · simp only [if_pos hc]
      exact Or.inl hc
    · simp only [if_neg hc]
      rcases dlt_trichotomy s e with h | h | h
      · exact Or.inl h
      · exact Or.inr h
      · exact absurd h hc
  have hspan : _build_date_span s e =
      (List.range (daysBetween (if dlt e s then e else s)
        (if dlt e s then s else e) + 1)).map (addDays (if dlt e s then e else s)) := by
    unfold _build_date_span
    by_cases hc : dlt e s <;> simp [hc]
  rw [hspan]
  obtain ⟨hc1, hc2, hc3, hc4, hc5, hc6⟩ := span_core _ _ hlov hhiv hle
  obtain ⟨hs1, hs2, hs3, hs4⟩ := seriesGB_facts
    ((List.range (daysBetween (if dlt e s then e else s)
      (if dlt e s then s else e) + 1)).map (addDays (if dlt e s then e else s))) perDay
  exact ⟨hc1, hc2, hc3, hc4, hc5, hc6, by rw [hs1, hc1], hs2, hs3,
    (seriesGB_facts _ perDay).2.2.2⟩

/-- Witness for C7 on a reversed pair spanning the 2024 leap day, with one
mapped date. -/
theorem c7_span_series_witness :
    (DValid ⟨2024, 3, 2⟩ ∧ DValid ⟨2024, 2, 27⟩ ∧
     (⟨2024, 2, 27⟩ : Date) = (if dlt ⟨2024, 2, 27⟩ ⟨2024, 3, 2⟩ then ⟨2024, 2, 27⟩ else ⟨2024, 3, 2⟩) ∧
     (⟨2024, 3, 2⟩ : Date) = (if dlt ⟨2024, 2, 27⟩ ⟨2024, 3, 2⟩ then ⟨2024, 3, 2⟩ else ⟨2024, 2, 27⟩)) ∧
    ((_build_date_span ⟨2024, 3, 2⟩ ⟨2024, 2, 27⟩).length
        = daysBetween ⟨2024, 2, 27⟩ ⟨2024, 3, 2⟩ + 1 ∧
     (_build_date_span ⟨2024, 3, 2⟩ ⟨2024, 2, 27⟩).get? 0 = some ⟨2024, 2, 27⟩ ∧
     (_build_date_span ⟨2024, 3, 2⟩ ⟨2024, 2, 27⟩).get?
        (daysBetween ⟨2024, 2, 27⟩ ⟨2024, 3, 2⟩) = some ⟨2024, 3, 2⟩ ∧
     (_build_date_span ⟨2024, 3, 2⟩ ⟨2024, 2, 27⟩).Pairwise dlt ∧
     (∀ x ∈ _build_date_span ⟨2024, 3, 2⟩ ⟨2024, 2, 27⟩,
        DValid x ∧ dle ⟨2024, 2, 27⟩ x ∧ dle x ⟨2024, 3, 2⟩) ∧
     (∀ x, DValid x → dle ⟨2024, 2, 27⟩ x → dle x ⟨2024, 3, 2⟩ →
        x ∈ _build_date_span ⟨2024, 3, 2⟩ ⟨2024, 2, 27⟩) ∧
     (dailySeriesGB (_build_date_span ⟨2024, 3, 2⟩ ⟨2024, 2, 27⟩)
        [("2024-02-28", 2000000000)]).length
        = daysBetween ⟨2024, 2, 27⟩ ⟨2024, 3, 2⟩ + 1 ∧
     (∀ v ∈ dailySeriesGB (_build_date_span ⟨2024, 3, 2⟩ ⟨2024, 2, 27⟩)
        [("2024-02-28", 2000000000)], 0 ≤ v) ∧
     (∀ i d, (_build_date_span ⟨2024, 3, 2⟩ ⟨2024, 2, 27⟩).get? i = some d →
        alGet [("2024-02-28", 2000000000)] (dateKey d) = none →
        (dailySeriesGB (_build_date_span ⟨2024, 3, 2⟩ ⟨2024, 2, 27⟩)
          [("2024-02-28", 2000000000)]).get? i = some 0) ∧
     (∀ v ∈ dailySeriesGB (_build_date_span ⟨2024, 3, 2⟩ ⟨2024, 2, 27⟩) [], v = 0)) :=
  ⟨⟨by decide, by decide, by decide, by decide⟩,
   c7_span_series ⟨2024, 3, 2⟩ ⟨2024, 2, 27⟩ (by decide) (by decide)
     ⟨2024, 2, 27⟩ ⟨2024, 3, 2⟩ (by decide) (by decide) [("2024-02-28", 2000000000)]⟩

/-! ## Lemmas on the tolerant date parser (C10) -/

/-- `digitChar10` produces ASCII digits. -/
theorem digitChar10_digit (n : Nat) : isDigitC (digitChar10 n) = true := by
  unfold digitChar10
  split <;> decide

/-- `digitChar10` lands in the digit alphabet. -/
theorem digitChar10_mem (n : Nat) :
    digitChar10 n ∈ ['0', '1', '2', '3', '4', '5', '6', '7', '8', '9'] := by
  unfold digitChar10
  split <;> decide

/-- `digitVal` inverts `digitChar10`. -/
theorem digitVal_digitChar10 (n : Nat) : digitVal (digitChar10 n) = n % 10 := by
  unfold digitChar10
  split <;> rename_i h
  any_goals (rw [h]; decide)
  simp only [imp_false] at *
  have h9 : n % 10 = 9 := by omega
  rw [h9]
  decide

/-- Digit characters are not whitespace. -/
theorem pyIsSpace_digitChar10 (n : Nat) : pyIsSpace (digitChar10 n) = false := by
  unfold digitChar10
  split <;> decide

/-- Every character of a formatted date key is a digit or a dash. -/
theorem dateKeyL_chars (dd : Date) :
    ∀ c ∈ dateKeyL dd, c ∈ ['0', '1', '2', '3', '4', '5', '6', '7', '8', '9', '-'] := by
  have hd : ∀ k, digitChar10 k ∈ ['0', '1', '2', '3', '4', '5', '6', '7', '8', '9', '-'] := by
    intro k
    unfold digitChar10
    split <;> decide
  intro c hc
  simp only [dateKeyL, pad4, pad2, List.cons_append, List.nil_append, List.mem_cons,
    List.not_mem_nil, or_false] at hc
  rcases hc with h | h | h | h | h | h | h | h | h | h <;> subst h <;>
    first
      | exact hd _
      | decide

/-- The digit-or-dash alphabet is inert for the ISO cleanup and for
stripping. -/
theorem cleanChar : ∀ c ∈ ['0', '1', '2', '3', '4', '5', '6', '7', '8', '9', '-'],
    (if c == 'T' then ' ' else c) = c ∧ (c != 'Z') = true ∧ (c != '.') = true ∧
    pyIsSpace c = false := by decide

/-- Stripping a string that begins with a formatted date key only strips
on the right, inside the tail. -/
theorem stripL_dateKey (dd : Date) (r : List Char) :
    pyStripL (dateKeyL dd ++ r) = dateKeyL dd ++ stripRightL r := by
  unfold pyStripL stripLeftL stripRightL
  have hleft : (dateKeyL dd ++ r).dropWhile pyIsSpace = dateKeyL dd ++ r := by
    rw [List.dropWhile_append]
    have h1 : (dateKeyL dd).dropWhile pyIsSpace = dateKeyL dd := by
      simp only [dateKeyL, pad4, List.cons_append, List.dropWhile_cons,
        pyIsSpace_digitChar10]
      simp
    rw [h1]
    simp [dateKeyL, pad4]
  rw [hleft, List.reverse_append, List.dropWhile_append]
  by_cases hc : (r.reverse.dropWhile pyIsSpace).isEmpty = true
  · rw [if_pos hc]
    have h2 : ((dateKeyL dd).reverse).dropWhile pyIsSpace = (dateKeyL dd).reverse := by
      simp only [dateKeyL, pad2, pad4, List.cons_append, List.nil_append,
        List.reverse_append, List.reverse_cons, List.reverse_nil, List.nil_append,
        List.append_assoc, List.cons_append]
      simp [List.dropWhile_cons, pyIsSpace_digitChar10]
    rw [h2, List.reverse_reverse]
    have hnil : r.reverse.dropWhile pyIsSpace = [] := by
      simpa using hc
    rw [hnil]
    simp
  · rw [if_neg hc, List.reverse_append, List.reverse_reverse]

/-- ISO cleanup leaves a leading date key untouched. -/
theorem isoCleanup_dateKey (dd : Date) (r : List Char) :
    isoCleanup (dateKeyL dd ++ r) = dateKeyL dd ++ isoCleanup r := by
  unfold isoCleanup
  rw [List.map_append, List.filter_append]
  have hmap : (dateKeyL dd).map (fun c => if c == 'T' then ' ' else c) = dateKeyL dd := by
    conv_rhs => rw [← List.map_id (dateKeyL dd)]
    exact List.map_congr_left (fun c hc => (cleanChar c (dateKeyL_chars dd c hc)).1)
  have hfil : (dateKeyL dd).filter (fun c => c != 'Z') = dateKeyL dd :=
    List.filter_eq_self.mpr (fun c hc => (cleanChar c (dateKeyL_chars dd c hc)).2.1)
  rw [hmap, hfil, List.takeWhile_append]
  have htk : (dateKeyL dd).takeWhile (fun c => c != '.') = dateKeyL dd :=
    List.takeWhile_eq_self_iff.mpr (fun c hc => (cleanChar c (dateKeyL_chars dd c hc)).2.2.1)
  rw [htk]
  simp

/-- `%Y` reads back a four-digit padded year before any tail. -/
theorem parse4Digits_pad4 (y : Nat) (hy : y ≤ 9999) (r : List Char) :
    parse4Digits (pad4 y ++ r) = some (y, r) := by
  have e1 := digitChar10_digit (y / 1000)
  have e2 := digitChar10_digit (y / 100)
  have e3 := digitChar10_digit (y / 10)
  have e4 := digitChar10_digit y
  have v1 := digitVal_digitChar10 (y / 1000)
  have v2 := digitVal_digitChar10 (y / 100)
  have v3 := digitVal_digitChar10 (y / 10)
  have v4 := digitVal_digitChar10 y
  simp only [pad4, List.cons_append, List.nil_append, parse4Digits, e1, e2, e3, e4,
    Bool.and_self, if_true]
  rw [v1, v2, v3, v4]
  simp only [Option.some.injEq, Prod.mk.injEq]
  exact ⟨by omega, trivial⟩

/-- `%m` reads back a two-digit padded month before any tail. -/
theorem parseMonthF_pad2 : ∀ m, 1 ≤ m → m ≤ 12 → ∀ r : List Char,
    parseMonthF (pad2 m ++ r) = some (m, r) := by
  intro m h1 h2
  interval_cases m <;> intro r <;> rfl

/-- `%d` reads back a two-digit padded day before any tail. -/
theorem parseDayF_pad2 : ∀ d, 1 ≤ d → d ≤ 31 → ∀ r : List Char,
    parseDayF (pad2 d ++ r) = some (d, r) := by
  intro d h1 h2
  interval_cases d <;> intro r <;> rfl

/-- Month lengths never exceed 31. -/
theorem lastDayAux_le (l : Bool) (m : Nat) : lastDayAux l m ≤ 31 := by
  unfold lastDayAux
  split
  · split <;> omega
  all_goals omega

/-- The time tail either fails or returns exactly the carried date. -/
theorem strptimeTimeTail_cases (y m d : Nat) (t : List Char) :
    strptimeTimeTail y m d t = none ∨ strptimeTimeTail y m d t = some ⟨y, m, d⟩ := by
  unfold strptimeTimeTail
  rcases h6 : expectC ' ' t with _ | r6
  · exact Or.inl rfl
  dsimp only
  rcases h7 : parseHourF r6 with _ | ⟨hh, r7⟩
  · exact Or.inl rfl
  dsimp only
  rcases h8 : expectC ':' r7 with _ | r8
  · exact Or.inl rfl
  dsimp only
  rcases h9 : parseMinuteF r8 with _ | ⟨mi, r9⟩
  · exact Or.inl rfl
  dsimp only
  rcases h10 : expectC ':' r9 with _ | r10
  · exact Or.inl rfl
  dsimp only
  rcases h11 : parseSecondF r10 with _ | ⟨sec, r11⟩
  · exact Or.inl rfl
  dsimp only
  split
  · exact Or.inr rfl
  · exact Or.inl rfl

/-- The full-timestamp attempt on a string starting with a formatted valid
date either fails or yields exactly that date. -/
theorem strptimeDateTime_dateKey (y m d : Nat) (h2 : 1 ≤ m) (h3 : m ≤ 12)
    (h4 : 1 ≤ d) (h5 : d ≤ 31) (hy : y ≤ 9999) (t : List Char) :
    strptimeDateTime (dateKeyL ⟨y, m, d⟩ ++ t) = none ∨
    strptimeDateTime (dateKeyL ⟨y, m, d⟩ ++ t) = some ⟨y, m, d⟩ := by
  have hkey : dateKeyL ⟨y, m, d⟩ ++ t =
      pad4 y ++ ('-' :: (pad2 m ++ ('-' :: (pad2 d ++ t)))) := by
    simp [dateKeyL, List.cons_append, List.append_assoc]
  rw [hkey]
  unfold strptimeDateTime
  rw [parse4Digits_pad4 y hy]
  simp only [expectC, beq_self_eq_true, if_true]
  rw [parseMonthF_pad2 m h2 h3]
  simp only [expectC, beq_self_eq_true, if_true]
  rw [parseDayF_pad2 d h4 h5]
  exact strptimeTimeTail_cases y m d t

/-- The date-only attempt on a formatted valid date succeeds. -/
theorem strptimeDateOnly_dateKey (y m d : Nat) (hv : DValid ⟨y, m, d⟩)
    (hy : y ≤ 9999) : strptimeDateOnly (dateKeyL ⟨y, m, d⟩) = some ⟨y, m, d⟩ := by
  obtain ⟨h1, h2, h3, h4, h5⟩ := hv
  simp only at h1 h2 h3 h4 h5
  have hd31 : d ≤ 31 := le_trans h5 (lastDayAux_le _ _)
  have hkey : dateKeyL ⟨y, m, d⟩ =
      pad4 y ++ ('-' :: (pad2 m ++ ('-' :: (pad2 d ++ ([] : List Char))))) := by
    simp [dateKeyL, List.cons_append, List.append_assoc]
  rw [hkey]
  unfold strptimeDateOnly
  rw [parse4Digits_pad4 y hy]
  simp only [expectC, beq_self_eq_true, if_true]
  rw [parseMonthF_pad2 m h2 h3]
  simp only [expectC, beq_self_eq_true, if_true]
  rw [parseDayF_pad2 d h4 hd31]
  simp [h1, h4, h5]

/-- The date key is ten characters long. -/
theorem dateKeyL_length (dd : Date) : (dateKeyL dd).length = 10 := by
  simp [dateKeyL, pad4, pad2]

/-- The date key is non-empty. -/
theorem dateKeyL_ne_nil (dd : Date) (r : List Char) :
    (dateKeyL dd ++ r).isEmpty = false := by
  simp [dateKeyL, pad4]

/-- C10: the tolerant parser accepts any string whose first ten characters
are a formatted valid date, whatever follows; in particular
`"2024-01-15garbage"` parses to 2024-01-15, a string accepted by neither a
strict date-only parse nor a strict full-timestamp parse. -/
theorem c10_first_ten (y m d : Nat) (hv : DValid ⟨y, m, d⟩) (hy : y ≤ 9999)
    (rest : String) :
    _parse_date_guess ⟨dateKeyL ⟨y, m, d⟩ ++ rest.data⟩ = some ⟨y, m, d⟩ ∧
    _parse_date_guess "2024-01-15garbage" = some ⟨2024, 1, 15⟩ ∧
    strptimeDateOnly ("2024-01-15garbage".data) = none ∧
    strptimeDateTime ("2024-01-15garbage".data) = none := by
  refine ⟨?_, by decide, by decide, by decide⟩
  obtain ⟨h1, h2, h3, h4, h5⟩ := hv
  simp only at h1 h2 h3 h4 h5
  have hd31 : d ≤ 31 := le_trans h5 (lastDayAux_le _ _)
  unfold _parse_date_guess parseDateGuessL
  show (let l := pyStripL (dateKeyL ⟨y, m, d⟩ ++ rest.data); _) = _
  rw [stripL_dateKey]
  simp only [dateKeyL_ne_nil, Bool.false_eq_true, if_false]
  rw [isoCleanup_dateKey]
  rcases strptimeDateTime_dateKey y m d h2 h3 h4 hd31 hy
      (isoCleanup (stripRightL rest.data)) with hDT | hDT
  · rw [hDT]
    have htake : (dateKeyL ⟨y, m, d⟩ ++ stripRightL rest.data).take 10
        = dateKeyL ⟨y, m, d⟩ := by
      rw [← dateKeyL_length ⟨y, m, d⟩, List.take_left]
    rw [htake]
    exact strptimeDateOnly_dateKey y m d ⟨h1, h2, h3, h4, h5⟩ hy
  · rw [hDT]

/-- Witness for C10 at `"2024-01-15" ++ "garbage"`. -/
theorem c10_first_ten_witness :
    (DValid ⟨2024, 1, 15⟩ ∧ 2024 ≤ 9999) ∧
    (_parse_date_guess ⟨dateKeyL ⟨2024, 1, 15⟩ ++ "garbage".data⟩ = some ⟨2024, 1, 15⟩ ∧
     _parse_date_guess "2024-01-15garbage" = some ⟨2024, 1, 15⟩ ∧
     strptimeDateOnly ("2024-01-15garbage".data) = none ∧
     strptimeDateTime ("2024-01-15garbage".data) = none) :=
  ⟨⟨by decide, by decide⟩, c10_first_ten 2024 1 15 (by decide) (by decide) "garbage"⟩

/-- C5: the unit-suffix parser maps `"1.5GB"` to 1 500 000 000 bytes,
`"500MB"` to 500 000 000, `"2KB"` to 2 000 and `"10"` to 10, using the
decimal multipliers 1e9/1e6/1e3/1; the suffix match is case-insensitive
and surrounding whitespace is ignored. -/
theorem c5_unit_parsing :
    parse_unit_value (Json.str "1.5GB") = some 1500000000 ∧
    parse_unit_value (Json.str "500MB") = some 500000000 ∧
    parse_unit_value (Json.str "2KB") = some 2000 ∧
    parse_unit_value (Json.str "10") = some 10 ∧
    parse_unit_value (Json.str "1.5gb") = some 1500000000 ∧
    parse_unit_value (Json.str "  1.5Gb  ") = some 1500000000 ∧
    parse_unit_value (Json.str " 500 mB ") = some 500000000 ∧
    parse_unit_value (Json.str "99B") = some 99 :=
  ⟨by decide, by decide, by decide, by decide, by decide, by decide, by decide, by decide⟩

/-! ## Accumulation lemmas for the per-day mapping (C6) -/

/-- Updating a key makes it readable. -/
theorem alGet_alSet_self (l : List (String × Int)) (k : String) (v : Int) :
    alGet (alSet l k v) k = some v := by
  induction l with
  | nil => simp [alSet, alGet, List.find?]
  | cons p r ih =>
    rcases p with ⟨k0, v0⟩
    by_cases h : k0 = k
    · subst h
      simp [alSet, alGet, List.find?]
    · simp only [alSet, if_neg h]
      have hb : (k0 == k) = false := by simp [h]
      simp only [alGet, List.find?, hb]
      exact ih

/-- Updating one key leaves the others unchanged. -/
theorem alGet_alSet_ne (l : List (String × Int)) (k k' : String) (v : Int)
    (h : k ≠ k') : alGet (alSet l k v) k' = alGet l k' := by
  induction l with
  | nil =>
    have hb : (k == k') = false := by simp [h]
    simp [alSet, alGet, List.find?, hb]
  | cons p r ih =>
    rcases p with ⟨k0, v0⟩
    by_cases h0 : k0 = k
    · subst h0
      have hb : (k0 == k') = false := by simp [h]
      simp [alSet, alGet, List.find?, hb]
    · simp only [alSet, if_neg h0]
      cases hq : (k0 == k' : Bool)
      · simp only [alGet, List.find?, hq]
        exact ih
      · simp only [alGet, List.find?, hq]

/-- Characterization of the accumulation fold: the mapping holds a key iff
the initial mapping did or some item contributed, and the value adds every
contribution to the initial value. -/
theorem dailyFold_char (items : List Json) : ∀ (acc : List (String × Int)) (k : String),
    alGet (items.foldl dayStep acc) k =
      if (alGet acc k).isSome ∨ contribsOf items k ≠ [] then
        some ((alGet acc k).getD 0 + (contribsOf items k).sum)
      else none := by
  induction items with
  | nil =>
    intro acc k
    simp only [List.foldl_nil, contribsOf, List.filterMap_nil, List.filter_nil,
      List.map_nil, List.sum_nil, ne_eq, not_true_eq_false, or_false]
    cases h : alGet acc k <;> simp [h]
  | cons item rest ih =>
    intro acc k
    simp only [List.foldl_cons]
    rcases hc : dayContribution item with _ | ⟨k', b⟩
    · have hstep : dayStep acc item = acc := by simp [dayStep, hc]
      have hcon : contribsOf (item :: rest) k = contribsOf rest k := by
        simp [contribsOf, List.filterMap_cons, hc]
      rw [hstep, ih, hcon]
    · have hstep : dayStep acc item = alSet acc k' ((alGet acc k').getD 0 + b) := by
        simp [dayStep, hc]
      rw [hstep, ih]
      by_cases hk : k' = k
      · subst hk
        have hcon : contribsOf (item :: rest) k' = b :: contribsOf rest k' := by
          simp [contribsOf, List.filterMap_cons, hc]
        rw [hcon, alGet_alSet_self]
        simp only [Option.isSome_some, true_or, if_true, Option.getD_some,
          List.sum_cons]
        cases hacc : alGet acc k' <;> simp [hacc] <;> omega
      · have hcon : contribsOf (item :: rest) k = contribsOf rest k := by
          simp [contribsOf, List.filterMap_cons, hc, Ne.symm, hk]
        rw [hcon, alGet_alSet_ne _ _ _ _ hk]

/-- C6: items sharing a calendar-day key have their byte counts summed
(never overwritten), and the per-day mapping read as a function of the key
is invariant under reordering of the input items. -/
theorem c6_daily_sum_perm :
    (∀ (i1 i2 : Json) (k : String) (b1 b2 : Int),
      dayContribution i1 = some (k, b1) → dayContribution i2 = some (k, b2) →
      alGet (_daily_bytes_from_traffic (Json.obj [("data", Json.arr [i1, i2])])) k
        = some (b1 + b2)) ∧
    (∀ (l1 l2 : List Json), l1.Perm l2 → ∀ k : String,
      alGet (_daily_bytes_from_traffic (Json.obj [("data", Json.arr l1)])) k =
      alGet (_daily_bytes_from_traffic (Json.obj [("data", Json.arr l2)])) k) := by
  have hD : ∀ l : List Json,
      _daily_bytes_from_traffic (Json.obj [("data", Json.arr l)]) =
        l.foldl dayStep [] := fun l => rfl
  constructor
  · intro i1 i2 k b1 b2 h1 h2
    rw [hD, dailyFold_char]
    have hcon : contribsOf [i1, i2] k = [b1, b2] := by
      simp [contribsOf, List.filterMap_cons, h1, h2]
    rw [hcon]
    have hget : alGet [] k = none := rfl
    rw [hget]
    simp
  · intro l1 l2 hperm k
    rw [hD, hD, dailyFold_char, dailyFold_char]
    have hpc : (contribsOf l1 k).Perm (contribsOf l2 k) :=
      ((hperm.filterMap dayContribution).filter _).map _
    have hsum : (contribsOf l1 k).sum = (contribsOf l2 k).sum := hpc.sum_eq
    have hiff : contribsOf l1 k = [] ↔ contribsOf l2 k = [] := by
      rw [← List.length_eq_zero, ← List.length_eq_zero, hpc.length_eq]
    by_cases hA : contribsOf l1 k = []
    · have hB : contribsOf l2 k = [] := hiff.mp hA
      simp [hA, hB]
    · have hB : contribsOf l2 k ≠ [] := fun h => hA (hiff.mpr h)
      simp [hA, hB, hsum]

/-- Bytes of the C6 witness item `itemA`. -/
theorem extract_bytes_itemA :
    extract_bytes [("date", Json.str "2024-01-01"), ("rx_tx_bytes", Json.num 5)] = 5 := by
  unfold extract_bytes
  rfl

/-- Bytes of the C6 witness item `itemB`. -/
theorem extract_bytes_itemB :
    extract_bytes [("date", Json.str "2024-01-01"), ("bytes", Json.num 7)] = 7 := by
  unfold extract_bytes
  rfl

/-- Witness for C6: two items on 2024-01-01 with 5 and 7 bytes accumulate
to 12. -/
theorem c6_daily_sum_perm_witness :
    dayContribution itemA = some ("2024-01-01", 5) ∧
    dayContribution itemB = some ("2024-01-01", 7) ∧
    alGet (_daily_bytes_from_traffic (Json.obj [("data", Json.arr [itemA, itemB])]))
      "2024-01-01" = some (5 + 7) := by
  have h1 : dayContribution itemA = some ("2024-01-01", 5) := by
    show some ("2024-01-01",
      extract_bytes [("date", Json.str "2024-01-01"), ("rx_tx_bytes", Json.num 5)]) =
      some ("2024-01-01", 5)
    rw [extract_bytes_itemA]
  have h2 : dayContribution itemB = some ("2024-01-01", 7) := by
    show some ("2024-01-01",
      extract_bytes [("date", Json.str "2024-01-01"), ("bytes", Json.num 7)]) =
      some ("2024-01-01", 7)
    rw [extract_bytes_itemB]
  exact ⟨h1, h2, c6_daily_sum_perm.1 itemA itemB "2024-01-01" 5 7 h1 h2⟩

/-! ## Absence lemmas for the two extraction passes (C4) -/

/-- A numeric-field probe only succeeds on a present non-null key. -/
theorem probeNumField_isSome (node : List (String × Json)) :
    ∀ ks, (probeNumField node ks).isSome = true →
      ∃ k ∈ ks, (jGet node k).isNull = false := by
  intro ks
  induction ks with
  | nil => intro h; simp [probeNumField] at h
  | cons k rest ih =>
    intro h
    by_cases hn : (jGet node k).isNull = true
    · rw [probeNumField] at h
      simp only [hn, if_true] at h
      rcases ih h with ⟨k', hk', hnn⟩
      exact ⟨k', List.mem_cons_of_mem _ hk', hnn⟩
    · exact ⟨k, List.mem_cons_self _ _, by simpa using hn⟩

/-- A truthiness-based probe only succeeds on a present truthy key. -/
theorem probeTruthyStr_isSome (node : List (String × Json)) :
    ∀ ks, (probeTruthyStr node ks).isSome = true →
      ∃ k ∈ ks, pyTruthy (jGet node k) = true := by
  intro ks
  induction ks with
  | nil => intro h; simp [probeTruthyStr] at h
  | cons k rest ih =>
    intro h
    by_cases ht : pyTruthy (jGet node k) = true
    · exact ⟨k, List.mem_cons_self _ _, ht⟩
    · rw [probeTruthyStr] at h
      simp only [ht, if_false] at h
      rcases ih h with ⟨k', hk', htt⟩
      exact ⟨k', List.mem_cons_of_mem _ hk', htt⟩

/-- A field of the snapshot fold is present only if it was present
initially or some node's probe succeeded. -/
theorem subsFold_field_isSome {α : Type} (f : SubsInfo → Option α)
    (probe : List (String × Json) → Option α)
    (hf : ∀ info node, f (subsInfoStep info node) = fillField (f info) (probe node)) :
    ∀ (nodes : List (List (String × Json))) (info : SubsInfo),
      (f (nodes.foldl subsInfoStep info)).isSome = true →
      (f info).isSome = true ∨ ∃ node ∈ nodes, (probe node).isSome = true := by
  intro nodes
  induction nodes with
  | nil => intro info h; exact Or.inl h
  | cons n rest ih =>
    intro info h
    simp only [List.foldl_cons] at h
    rcases ih _ h with h1 | ⟨node, hn, hp⟩
    · rw [hf] at h1
      cases hfi : f info with
      | some v => exact Or.inl (by simp [hfi])
      | none =>
        rw [hfi] at h1
        simp only [fillField] at h1
        exact Or.inr ⟨n, List.mem_cons_self _ _, h1⟩
    · exact Or.inr ⟨node, List.mem_cons_of_mem _ hn, hp⟩

/-- A non-empty contribution list exhibits a contributing item. -/
theorem contribsOf_ne_nil {items : List Json} {k : String}
    (h : contribsOf items k ≠ []) :
    ∃ item ∈ items, ∃ b : Int, dayContribution item = some (k, b) := by
  unfold contribsOf at h
  have h2 : (items.filterMap dayContribution).filter (fun p => p.1 = k) ≠ [] := by
    intro hc
    exact h (by rw [hc]; rfl)
  rcases List.exists_mem_of_ne_nil _ h2 with ⟨p, hp⟩
  have hmem := (List.mem_filter.mp hp).1
  have hkey : p.1 = k := by
    have := (List.mem_filter.mp hp).2
    exact of_decide_eq_true this
  rcases List.mem_filterMap.mp hmem with ⟨item, hitem, hcon⟩
  exact ⟨item, hitem, p.2, by rw [hcon, ← hkey]⟩

/-- The nested container fold holds a key only if some item of some
container contributed it. -/
theorem dailyNestedFold_isSome :
    ∀ (cs : List (List Json)) (acc : List (String × Int)) (k : String),
      (alGet (cs.foldl (fun acc data => data.foldl dayStep acc) acc) k).isSome = true →
      (alGet acc k).isSome = true ∨
        ∃ c ∈ cs, ∃ item ∈ c, ∃ b : Int, dayContribution item = some (k, b) := by
  intro cs
  induction cs with
  | nil => intro acc k h; exact Or.inl h
  | cons c rest ih =>
    intro acc k h
    simp only [List.foldl_cons] at h
    rcases ih _ _ h with h1 | ⟨c', hc', hex⟩
    · rw [dailyFold_char] at h1
      by_cases hcond : (alGet acc k).isSome = true ∨ contribsOf c k ≠ []
      · rcases hcond with hs | hne
        · exact Or.inl hs
        · rcases contribsOf_ne_nil hne with ⟨item, hitem, b, hb⟩
          exact Or.inr ⟨c, List.mem_cons_self _ _, item, hitem, b, hb⟩
      · rw [if_neg hcond] at h1
        simp at h1
    · exact Or.inr ⟨c', List.mem_cons_of_mem _ hc', hex⟩

/-- C4: both extraction passes are total functions of the input tree; a
non-mapping/non-sequence input yields the all-`None` snapshot, each
snapshot field is `None` unless some candidate node carries one of its
accepted keys (non-null for the numeric fields, truthy for the others),
a non-mapping input yields the empty per-day mapping, and the per-day
mapping holds a key only if some item of some container contributed it. -/
theorem c4_total_extraction (j : Json) :
    (j.isObj = false → j.isArr = false → _extract_subs_info j = emptySubsInfo) ∧
    ((_extract_subs_info j).limit.isSome = true →
      ∃ node ∈ subsCandidates j, ∃ k ∈ keys_limit, (jGet node k).isNull = false) ∧
    ((_extract_subs_info j).used.isSome = true →
      ∃ node ∈ subsCandidates j, ∃ k ∈ keys_used, (jGet node k).isNull = false) ∧
    ((_extract_subs_info j).period_start.isSome = true →
      ∃ node ∈ subsCandidates j, ∃ k ∈ keys_start, pyTruthy (jGet node k) = true) ∧
    ((_extract_subs_info j).period_end.isSome = true →
      ∃ node ∈ subsCandidates j, ∃ k ∈ keys_end, pyTruthy (jGet node k) = true) ∧
    ((_extract_subs_info j).plan.isSome = true →
      ∃ node ∈ subsCandidates j, ∃ k ∈ keys_plan, pyTruthy (jGet node k) = true) ∧
    (j.isObj = false → _daily_bytes_from_traffic j = []) ∧
    (∀ k : String, (alGet (_daily_bytes_from_traffic j) k).isSome = true →
      ∃ c ∈ containersOf j, ∃ item ∈ c, ∃ b : Int,
        dayContribution item = some (k, b)) := by
  have hfold : (j.isObj = true ∨ j.isArr = true) →
      _extract_subs_info j = (subsCandidates j).foldl subsInfoStep emptySubsInfo := by
    intro hc
    rcases j <;> simp [Json.isObj, Json.isArr] at hc <;> rfl
  have hscalar : j.isObj = false → j.isArr = false →
      _extract_subs_info j = emptySubsInfo := by
    intro h1 h2
    rcases j <;> simp [Json.isObj, Json.isArr] at h1 h2 <;> rfl
  have hlimit : ∀ (hs : (_extract_subs_info j).limit.isSome = true),
      ∃ node ∈ subsCandidates j, ∃ k ∈ keys_limit, (jGet node k).isNull = false := by
    intro hs
    by_cases hobj : j.isObj = true ∨ j.isArr = true
    · rw [hfold hobj] at hs
      rcases subsFold_field_isSome SubsInfo.limit
          (fun node => probeNumField node keys_limit) (fun _ _ => rfl) _ _ hs with
        h1 | ⟨node, hn, hp⟩
      · simp [emptySubsInfo] at h1
      · exact ⟨node, hn, probeNumField_isSome node keys_limit hp⟩
    · push_neg at hobj
      rw [hscalar (by simpa using hobj.1) (by simpa using hobj.2)] at hs
      simp [emptySubsInfo] at hs
  have hused : ∀ (hs : (_extract_subs_info j).used.isSome = true),
      ∃ node ∈ subsCandidates j, ∃ k ∈ keys_used, (jGet node k).isNull = false := by
    intro hs
    by_cases hobj : j.isObj = true ∨ j.isArr = true
    · rw [hfold hobj] at hs
      rcases subsFold_field_isSome SubsInfo.used
          (fun node => probeNumField node keys_used) (fun _ _ => rfl) _ _ hs with
        h1 | ⟨node, hn, hp⟩
      · simp [emptySubsInfo] at h1
      · exact ⟨node, hn, probeNumField_isSome node keys_used hp⟩
    · push_neg at hobj
      rw [hscalar (by simpa using hobj.1) (by simpa using hobj.2)] at hs
      simp [emptySubsInfo] at hs
  have hstart : ∀ (hs : (_extract_subs_info j).period_start.isSome = true),
      ∃ node ∈ subsCandidates j, ∃ k ∈ keys_start, pyTruthy (jGet node k) = true := by
    intro hs
    by_cases hobj : j.isObj = true ∨ j.isArr = true
    · rw [hfold hobj] at hs
      rcases subsFold_field_isSome SubsInfo.period_start
          (fun node => probeTruthyStr node keys_start) (fun _ _ => rfl) _ _ hs with
        h1 | ⟨node, hn, hp⟩
      · simp [emptySubsInfo] at h1
      · exact ⟨node, hn, probeTruthyStr_isSome node keys_start hp⟩
    · push_neg at hobj
      rw [hscalar (by simpa using hobj.1) (by simpa using hobj.2)] at hs
      simp [emptySubsInfo] at hs
  have hend : ∀ (hs : (_extract_subs_info j).period_end.isSome = true),
      ∃ node ∈ subsCandidates j, ∃ k ∈ keys_end, pyTruthy (jGet node k) = true := by
    intro hs
    by_cases hobj : j.isObj = true ∨ j.isArr = true
    · rw [hfold hobj] at hs
      rcases subsFold_field_isSome SubsInfo.period_end
          (fun node => probeTruthyStr node keys_end) (fun _ _ => rfl) _ _ hs with
        h1 | ⟨node, hn, hp⟩
      · simp [emptySubsInfo] at h1
      · exact ⟨node, hn, probeTruthyStr_isSome node keys_end hp⟩
    · push_neg at hobj
      rw [hscalar (by simpa using hobj.1) (by simpa using hobj.2)] at hs
      simp [emptySubsInfo] at hs
  have hplan : ∀ (hs : (_extract_subs_info j).plan.isSome = true),
      ∃ node ∈ subsCandidates j, ∃ k ∈ keys_plan, pyTruthy (jGet node k) = true := by
    intro hs
    by_cases hobj : j.isObj = true ∨ j.isArr = true
    · rw [hfold hobj] at hs
      rcases subsFold_field_isSome SubsInfo.plan
          (fun node => probeTruthyStr node keys_plan) (fun _ _ => rfl) _ _ hs with
        h1 | ⟨node, hn, hp⟩
      · simp [emptySubsInfo] at h1
      · exact ⟨node, hn, probeTruthyStr_isSome node keys_plan hp⟩
    · push_neg at hobj
      rw [hscalar (by simpa using hobj.1) (by simpa using hobj.2)] at hs
      simp [emptySubsInfo] at hs
  refine ⟨hscalar, hlimit, hused, hstart, hend, hplan, ?_, ?_⟩
  · intro hobj
    rcases j <;> simp [Json.isObj] at hobj <;> rfl
  · intro k hs
    unfold _daily_bytes_from_traffic at hs
    rcases dailyNestedFold_isSome (containersOf j) [] k hs with h1 | hex
    · simp [alGet, List.find?] at h1
    · exact hex

/-- Witness for C4 at the scalar input `Json.str "x"` and an object with a
contributing item. -/
theorem c4_total_extraction_witness :
    _extract_subs_info (Json.str "x") = emptySubsInfo ∧
    _daily_bytes_from_traffic (Json.str "x") = [] :=
  ⟨(c4_total_extraction (Json.str "x")).1 rfl rfl,
   (c4_total_extraction (Json.str "x")).2.2.2.2.2.2.1 rfl⟩

/-! ## The usage formatter (C3) -/

/-- C3 counterexample: with a present but non-numeric raw limit and no
resolvable used figure, neither figure resolves, yet the report is neither
the explicit could-not-determine message nor does it carry any usage line
— it is just the title, a blank line and the timestamp. -/
theorem c3_counterexample :
    fuUsedFinal subsCtr trafficCtr = none ∧
    fuLimitFinal subsCtr = none ∧
    format_usage_lines subsCtr trafficCtr none none "T" =
      ["Decodo Usage", "", "As of: T"] ∧
    format_usage subsCtr trafficCtr none none "T" = "Decodo Usage\n\nAs of: T" ∧
    format_usage subsCtr trafficCtr none none "T" ≠
      "Couldn't determine usage from API response." :=
  ⟨by decide, by decide, by decide, by decide, by decide⟩

/-- C3 amended: the explicit could-not-determine message appears exactly
when no used figure resolves and the raw limit lookup is `None`; when both
final figures resolve the report is the line list with a `Usage:` line and
a never-negative `Remaining:` line; a lone used figure gives a `Used:`
line; with no used figure but a non-`None` raw limit the report is the
line list, carrying a `Limit:` line when the limit coerces and no usage
section at all when it does not. -/
theorem c3_amended (subs traffic : Json) (label proxy : Option String) (asOf : String) :
    (fuUsedFinal subs traffic = none → (fuLimitUsed subs).1.isNull = true →
      format_usage subs traffic label proxy asOf =
        "Couldn't determine usage from API response.") ∧
    (∀ u : ℚ, fuUsedFinal subs traffic = some u →
      format_usage subs traffic label proxy asOf =
        String.intercalate "\n" (format_usage_lines subs traffic label proxy asOf)) ∧
    (∀ u l : ℚ, fuUsedFinal subs traffic = some u → fuLimitFinal subs = some l →
      ("Usage: " ++ fmt2 u ++ " GB of " ++ fmt2 l ++ " GB")
          ∈ format_usage_lines subs traffic label proxy asOf ∧
      ("Remaining: " ++ fmt2 (max (qSub l u) 0) ++ " GB")
          ∈ format_usage_lines subs traffic label proxy asOf ∧
      0 ≤ max (qSub l u) 0) ∧
    (∀ u : ℚ, fuUsedFinal subs traffic = some u → fuLimitFinal subs = none →
      ("Used: " ++ fmt2 u ++ " GB") ∈ format_usage_lines subs traffic label proxy asOf) ∧
    (fuUsedFinal subs traffic = none → (fuLimitUsed subs).1.isNull = false →
      format_usage subs traffic label proxy asOf =
        String.intercalate "\n" (format_usage_lines subs traffic label proxy asOf) ∧
      (∀ l : ℚ, fuLimitFinal subs = some l →
        ("Limit: " ++ fmt2 l ++ " GB") ∈ format_usage_lines subs traffic label proxy asOf) ∧
      (fuLimitFinal subs = none →
        fuUsageLines (fuUsedFinal subs traffic) (fuLimitFinal subs) = [])) := by
  refine ⟨?_, ?_, ?_, ?_, ?_⟩
  · intro hu hl
    unfold format_usage
    rw [if_pos]
    rw [hu, hl]
    rfl
  · intro u hu
    unfold format_usage
    rw [if_neg]
    rw [hu]
    simp
  · intro u l hu hl
    refine ⟨?_, ?_, le_max_right _ _⟩
    · unfold format_usage_lines
      rw [hu, hl]
      simp [fuUsageLines]
    · unfold format_usage_lines
      rw [hu, hl]
      simp [fuUsageLines]
  · intro u hu hl
    unfold format_usage_lines
    rw [hu, hl]
    simp [fuUsageLines]
  · intro hu hl
    refine ⟨?_, ?_, ?_⟩
    · unfold format_usage
      rw [if_neg]
      rw [hl]
      simp
    · intro l hlf
      unfold format_usage_lines
      rw [hu, hlf]
      simp [fuUsageLines]
    · intro hlf
      rw [hu, hlf]
      rfl

/-- Witness for C3 amended, at a subscriptions object with limit 100 GB
and used 5 GB. -/
theorem c3_amended_witness :
    (fuUsedFinal subsW trafficCtr = some 5 ∧ fuLimitFinal subsW = some 100) ∧
    (("Usage: " ++ fmt2 5 ++ " GB of " ++ fmt2 100 ++ " GB")
        ∈ format_usage_lines subsW trafficCtr none none "T" ∧
     ("Remaining: " ++ fmt2 (max (qSub 100 5) 0) ++ " GB")
        ∈ format_usage_lines subsW trafficCtr none none "T" ∧
     0 ≤ max (qSub (100 : ℚ) 5) 0) :=
  ⟨⟨by decide, by decide⟩,
   (c3_amended subsW trafficCtr none none "T").2.2.1 5 100 (by decide) (by decide)⟩

/-- Helper for C2: the anchored cycle start never lies after `today`. -/
theorem aps_core_le (d : Nat) (now : Date) (h : DValid now) :
    dle (_anchored_period_start_core d now) now := by
  obtain ⟨hy, hm1, hm12, hd1, hd2⟩ := h
  simp only [_anchored_period_start_core]
  split
  · rename_i hc; exact hc
  · rename_i hc
    left
    simp only [dlt]
    by_cases h1 : now.month = 1 <;> simp [h1] <;> omega

/-- Helper for C2: the anchored cycle end lies strictly after the start it
is computed from. -/
theorem ape_core_gt (d : Nat) (s : Date) : dlt s (_anchored_period_end_core d s) := by
  simp only [_anchored_period_end_core, dlt]
  by_cases h : s.month = 12 <;> simp [h] <;> omega

/-- Helper for C2: the cycle start's day-of-month is the anchor day clamped
to its own month's length. -/
theorem aps_core_day (d : Nat) (now : Date) :
    (_anchored_period_start_core d now).day =
      min d (_last_day_of_month (_anchored_period_start_core d now).year
        (_anchored_period_start_core d now).month) := by
  simp only [_anchored_period_start_core]
  split <;> rfl

/-- Helper for C2: the cycle end's day-of-month is the anchor day clamped
to its own month's length. -/
theorem ape_core_day (d : Nat) (s : Date) :
    (_anchored_period_end_core d s).day =
      min d (_last_day_of_month (_anchored_period_end_core d s).year
        (_anchored_period_end_core d s).month) := rfl

/-- C2: for every anchor day `d` in `1..31` and every current date, the
computed cycle start is ≤ now, the cycle end is strictly after the start,
the day-of-month of each equals `min d (lastDayOfMonth(its own month))`,
and Scenario A holds: anchor `"2024-01-31"` with now `2024-02-15` gives
cycle start `2024-01-31` and cycle end `2024-02-29`. -/
theorem c2_anchored_cycle (d : Nat) (hd1 : 1 ≤ d) (hd31 : d ≤ 31)
    (now : Date) (hv : DValid now) :
    dle (_anchored_period_start_core d now) now ∧
    dlt (_anchored_period_start_core d now)
      (_anchored_period_end_core d (_anchored_period_start_core d now)) ∧
    (_anchored_period_start_core d now).day =
      min d (_last_day_of_month (_anchored_period_start_core d now).year
        (_anchored_period_start_core d now).month) ∧
    (_anchored_period_end_core d (_anchored_period_start_core d now)).day =
      min d (_last_day_of_month
        (_anchored_period_end_core d (_anchored_period_start_core d now)).year
        (_anchored_period_end_core d (_anchored_period_start_core d now)).month) ∧
    _anchored_period_start "2024-01-31" ⟨2024, 2, 15⟩ = some ⟨2024, 1, 31⟩ ∧
    _anchored_period_end "2024-01-31" ⟨2024, 1, 31⟩ = some ⟨2024, 2, 29⟩ :=
  ⟨aps_core_le d now hv, ape_core_gt d _, aps_core_day d now, ape_core_day d _,
   by decide, by decide⟩

/-- Witness for C2 at anchor day 31 and now 2024-02-15. -/
theorem c2_anchored_cycle_witness :
    (1 ≤ 31 ∧ 31 ≤ 31 ∧ DValid ⟨2024, 2, 15⟩) ∧
    (dle (_anchored_period_start_core 31 ⟨2024, 2, 15⟩) ⟨2024, 2, 15⟩ ∧
     dlt (_anchored_period_start_core 31 ⟨2024, 2, 15⟩)
       (_anchored_period_end_core 31 (_anchored_period_start_core 31 ⟨2024, 2, 15⟩)) ∧
     (_anchored_period_start_core 31 ⟨2024, 2, 15⟩).day =
       min 31 (_last_day_of_month (_anchored_period_start_core 31 ⟨2024, 2, 15⟩).year
         (_anchored_period_start_core 31 ⟨2024, 2, 15⟩).month) ∧
     (_anchored_period_end_core 31 (_anchored_period_start_core 31 ⟨2024, 2, 15⟩)).day =
       min 31 (_last_day_of_month
         (_anchored_period_end_core 31 (_anchored_period_start_core 31 ⟨2024, 2, 15⟩)).year
         (_anchored_period_end_core 31 (_anchored_period_start_core 31 ⟨2024, 2, 15⟩)).month) ∧
     _anchored_period_start "2024-01-31" ⟨2024, 2, 15⟩ = some ⟨2024, 1, 31⟩ ∧
     _anchored_period_end "2024-01-31" ⟨2024, 1, 31⟩ = some ⟨2024, 2, 29⟩) :=
  ⟨⟨by decide, by decide, by decide⟩,
   c2_anchored_cycle 31 (by decide) (by decide) ⟨2024, 2, 15⟩ (by decide)⟩

/-- C9: an anchor string rejected by the tolerant parser makes both cycle
computations return `None` instead of raising; the unparseable anchor is
treated as absent. -/
theorem c9_invalid_anchor (s : String) (h : _parse_date_guess s = none)
    (now start : Date) :
    _anchored_period_start s now = none ∧ _anchored_period_end s start = none := by
  unfold _anchored_period_start _anchored_period_end
  rw [h]
  exact ⟨rfl, rfl⟩

/-- Witness for C9 on the string `"not-a-date"`. -/
theorem c9_invalid_anchor_witness :
    _parse_date_guess "not-a-date" = none ∧
    (_anchored_period_start "not-a-date" ⟨2024, 5, 1⟩ = none ∧
     _anchored_period_end "not-a-date" ⟨2024, 5, 2⟩ = none) :=
  ⟨by decide, c9_invalid_anchor "not-a-date" (by decide) ⟨2024, 5, 1⟩ ⟨2024, 5, 2⟩⟩

/-- C1 counterexample: with candidates `["a", "b"]` where `"a"` fails with
a transport-style (non-HTTP-status) error and `"b"` succeeds, the executor
does NOT propagate the failure immediately as the claim requires for
non-400 failures: it attempts `"b"` and returns its result. -/
theorem c1_counterexample :
    _fetch_month_usage_with_fallback qTransport [some "a", some "b"] none
      = (.ok 7, [some "a", some "b"]) ∧
    _fetch_month_usage_with_fallback qTransport [some "a", some "b"] none
      ≠ (.error (some (.exc "transport failure")), [some "a"]) :=
  ⟨rfl, by simp [_fetch_month_usage_with_fallback, qTransport]⟩

/-- C1 amended: the executor tries candidates strictly in order and returns
the first success; an HTTP 400 failure is recorded and the next candidate
is tried; any non-HTTP-status exception (transport, unknown) is likewise
recorded and the next candidate is tried; only an HTTP-status failure with
code ≠ 400 is fatal and propagates immediately without attempting any
remaining candidate; an exhausted list re-raises the recorded error. -/
theorem c1_amended {α : Type} (q : Option String → Except QueryErr α)
    (c : Option String) (rest : List (Option String)) (last : Option QueryErr) :
    (∀ r, q c = .ok r →
      _fetch_month_usage_with_fallback q (c :: rest) last = (.ok r, [c])) ∧
    (∀ body, q c = .error (.http 400 body) →
      _fetch_month_usage_with_fallback q (c :: rest) last =
        ((_fetch_month_usage_with_fallback q rest (some (.http 400 body))).1,
         c :: (_fetch_month_usage_with_fallback q rest (some (.http 400 body))).2)) ∧
    (∀ s body, q c = .error (.http s body) → s ≠ 400 →
      _fetch_month_usage_with_fallback q (c :: rest) last =
        (.error (some (.http s body)), [c])) ∧
    (∀ m, q c = .error (.exc m) →
      _fetch_month_usage_with_fallback q (c :: rest) last =
        ((_fetch_month_usage_with_fallback q rest (some (.exc m))).1,
         c :: (_fetch_month_usage_with_fallback q rest (some (.exc m))).2)) ∧
    _fetch_month_usage_with_fallback q ([] : List (Option String)) last
      = (.error last, []) := by
  refine ⟨?_, ?_, ?_, ?_, rfl⟩
  · intro r hq; simp [_fetch_month_usage_with_fallback, hq]
  · intro body hq; simp [_fetch_month_usage_with_fallback, hq]
  · intro s body hq hs; simp [_fetch_month_usage_with_fallback, hq, hs]
  · intro m hq; simp [_fetch_month_usage_with_fallback, hq]

/-- Witness for C1 amended: a 500 on the first candidate propagates at
once, leaving the second candidate unattempted. -/
theorem c1_amended_witness :
    qHttp500 (some "x") = .error (.http 500 "server error") ∧ (500 : Nat) ≠ 400 ∧
    _fetch_month_usage_with_fallback qHttp500 [some "x", some "y"] none
      = (.error (some (.http 500 "server error")), [some "x"]) :=
  ⟨rfl, by decide,
   (c1_amended qHttp500 (some "x") [some "y"] none).2.2.1 500 "server error" rfl (by decide)⟩

/-- C8: the candidate list never contains duplicates; with a configured
(usable) mapped preference it is exactly that value, then the absent
candidate, then the fixed fallback sequence without the preferred value;
with no usable preference it is the absent candidate followed by the whole
fixed fallback sequence. -/
theorem c8_candidates (env : Option String) :
    (_build_proxy_type_candidates env).Nodup ∧
    (∀ f, _map_service_to_proxy_type env = some f → f ≠ "" →
      _build_proxy_type_candidates env =
        some f :: none :: (fixedFallback.filter (fun v => v ≠ f)).map (fun v => some v)) ∧
    ((_map_service_to_proxy_type env = none ∨ _map_service_to_proxy_type env = some "") →
      _build_proxy_type_candidates env = none :: fixedFallback.map (fun v => some v)) := by
  rcases hm : _map_service_to_proxy_type env with _ | f
  · refine ⟨?_, ?_, ?_⟩
    · simp only [_build_proxy_type_candidates, hm]
      decide
    · intro f hf; simp at hf
    · intro _; simp only [_build_proxy_type_candidates, hm]; decide
  · by_cases hf : f = ""
    · subst hf
      refine ⟨?_, ?_, ?_⟩
      · simp only [_build_proxy_type_candidates, hm]
        decide
      · intro g hg hge
        exact absurd (Option.some.inj hg).symm hge
      · intro _; simp only [_build_proxy_type_candidates, hm]; decide
    · have hbuild : _build_proxy_type_candidates env =
          some f :: none :: (fixedFallback.filter (fun v => v ≠ f)).map (fun v => some v) := by
        simp only [_build_proxy_type_candidates, hm, pyTruthyOS]
        simp [hf]
      refine ⟨?_, ?_, ?_⟩
      · rw [hbuild]
        have hnf : (fixedFallback.filter (fun v => v ≠ f)).Nodup :=
          List.Nodup.filter _ (by decide)
        refine List.nodup_cons.mpr ⟨?_, List.nodup_cons.mpr ⟨?_, ?_⟩⟩
        · intro hmem
          rcases List.mem_cons.mp hmem with h | h
          · exact Option.noConfusion h
          · rcases List.mem_map.mp h with ⟨v, hv, hveq⟩
            have hvf : v = f := Option.some.inj hveq
            subst hvf
            exact absurd rfl (of_decide_eq_true (List.mem_filter.mp hv).2)
        · intro hmem
          rcases List.mem_map.mp hmem with ⟨v, _, hveq⟩
          exact Option.noConfusion hveq
        · exact hnf.map (fun a b h => Option.some.inj h)
      · intro g hg hge
        have hfg : f = g := Option.some.inj hg
        subst hfg
        exact hbuild
      · intro habs
        rcases habs with h | h
        · exact Option.noConfusion h
        · exact absurd (Option.some.inj h) hf

/-- Witness for C8 at the configured preference `"mobile"`. -/
theorem c8_candidates_witness :
    _map_service_to_proxy_type (some "mobile") = some "mobile_proxies" ∧
    ("mobile_proxies" : String) ≠ "" ∧
    _build_proxy_type_candidates (some "mobile") =
      some "mobile_proxies" :: none ::
        (fixedFallback.filter (fun v => v ≠ "mobile_proxies")).map (fun v => some v) :=
  ⟨rfl, by decide, (c8_candidates (some "mobile")).2.1 "mobile_proxies" rfl (by decide)⟩

end Decodo

